/-
Verification of the Monkey-style bytecode compiler and virtual machine
(repository: yourfavoritedev/golang-interpreter).

Shallow embedding of the Go sources:
  * package `token`  (constants modelled from the spec; the file itself is
    not part of the analysed sources)
  * package `object` (object.go, final version with closures)
  * package `code`   (code.go, final version: opcode table, Make, ReadOperands)
  * package `compiler` (compiler.go and symbol_table.go, final versions)
  * package `vm`     (vm.go and frame.go as shipped: this snapshot has no
    cases for OpClosure / OpGetFree / OpCurrentClosure and dispatches calls
    on bare CompiledFunction values)
  * package `lexer`  (lexer.go)
  * package `parser` (parser.go, full Pratt parser version)

Go slices of fixed size are modelled by total functions plus an explicit
bound check where the Go code would raise an index-out-of-range panic;
Go `int64` arithmetic wraps via an explicit `% 2 ^ 64`; Go maps that are
only written and looked up are modelled as association lists where the
newest binding wins.  Functions whose Go recursion is a loop are given an
explicit fuel argument; the fuel is always chosen large enough that the
modelled loop finishes for the inputs considered.
-/
import Mathlib

set_option linter.dupNamespace false

namespace Interp

/-- Modelled from the spec: the `token` package is not among the analysed
source files; the closed set of token kinds is taken verbatim from the
specification (section 4.1). -/
inductive TokenType where
  | ILLEGAL | EOF | IDENT | INT | STRING
  | ASSIGN | PLUS | MINUS | BANG | ASTERISK | SLASH
  | LT | GT | EQ | NOT_EQ
  | COMMA | SEMICOLON | COLON
  | LPAREN | RPAREN | LBRACE | RBRACE | LBRACKET | RBRACKET
  | FUNCTION | LET | TRUE | FALSE | IF | ELSE | RETURN
deriving DecidableEq, Repr

/-- Modelled from the spec: the printed form of a token type, used only to
format parser diagnostics (the canonical Monkey token constants: operator
and delimiter kinds print as their lexeme, the others as their name). -/
def TokenType.goString : TokenType → String
  | .ILLEGAL => "ILLEGAL" | .EOF => "EOF" | .IDENT => "IDENT" | .INT => "INT"
  | .STRING => "STRING"
  | .ASSIGN => "=" | .PLUS => "+" | .MINUS => "-" | .BANG => "!"
  | .ASTERISK => "*" | .SLASH => "/"
  | .LT => "<" | .GT => ">" | .EQ => "==" | .NOT_EQ => "!="
  | .COMMA => "," | .SEMICOLON => ";" | .COLON => ":"
  | .LPAREN => "(" | .RPAREN => ")" | .LBRACE => "\x7b" | .RBRACE => "\x7d"
  | .LBRACKET => "[" | .RBRACKET => "]"
  | .FUNCTION => "FUNCTION" | .LET => "LET" | .TRUE => "TRUE" | .FALSE => "FALSE"
  | .IF => "IF" | .ELSE => "ELSE" | .RETURN => "RETURN"

/-- A lexical token: kind plus literal text (`token.Token`; the Go field
`Type` is spelled `type` here because `Type` is reserved in Lean). -/
structure Token where
  type : TokenType
  Literal : String
deriving DecidableEq, Repr

/-- Modelled from the spec: `token.LookupIdent` distinguishes the keyword
identifiers from plain identifiers. -/
def LookupIdent (ident : String) : TokenType :=
  if ident = "fn" then .FUNCTION
  else if ident = "let" then .LET
  else if ident = "true" then .TRUE
  else if ident = "false" then .FALSE
  else if ident = "if" then .IF
  else if ident = "else" then .ELSE
  else if ident = "return" then .RETURN
  else .IDENT

/-! ## Package `code`: opcodes, `Make`, `ReadOperands` (code.go, final version) -/

namespace Code

/-- `code.Opcode` is a byte; modelled as `Nat` (values are below 256). -/
abbrev Opcode := Nat

def OpConstant : Opcode := 0
def OpAdd : Opcode := 1
def OpPop : Opcode := 2
def OpSub : Opcode := 3
def OpMul : Opcode := 4
def OpDiv : Opcode := 5
def OpTrue : Opcode := 6
def OpFalse : Opcode := 7
def OpEqual : Opcode := 8
def OpNotEqual : Opcode := 9
def OpGreaterThan : Opcode := 10
def OpMinus : Opcode := 11
def OpBang : Opcode := 12
def OpJumpNotTruthy : Opcode := 13
def OpJump : Opcode := 14
def OpNull : Opcode := 15
def OpGetGlobal : Opcode := 16
def OpSetGlobal : Opcode := 17
def OpArray : Opcode := 18
def OpHash : Opcode := 19
def OpIndex : Opcode := 20
def OpCall : Opcode := 21
def OpReturnValue : Opcode := 22
def OpReturn : Opcode := 23
def OpSetLocal : Opcode := 24
def OpGetLocal : Opcode := 25
def OpGetBuiltin : Opcode := 26
def OpClosure : Opcode := 27
def OpGetFree : Opcode := 28
def OpCurrentClosure : Opcode := 29

/-- `code.Definition`: an opcode's human-readable name and the byte width of
each of its operands. -/
structure Definition where
  Name : String
  OperandWidths : List Nat
deriving DecidableEq, Repr

/-- The `definitions` map together with `code.Lookup`: the opcode table of
code.go.  Looking up an undefined opcode yields `none` (the Go function
returns an error). -/
def Lookup (op : Nat) : Option Definition :=
  match op with
  | 0 => some ⟨"OpConstant", [2]⟩
  | 1 => some ⟨"OpAdd", []⟩
  | 2 => some ⟨"OpPop", []⟩
  | 3 => some ⟨"OpSub", []⟩
  | 4 => some ⟨"OpMul", []⟩
  | 5 => some ⟨"OpDiv", []⟩
  | 6 => some ⟨"OpTrue", []⟩
  | 7 => some ⟨"OpFalse", []⟩
  | 8 => some ⟨"OpEqual", []⟩
  | 9 => some ⟨"OpNotEqual", []⟩
  | 10 => some ⟨"OpGreaterThan", []⟩
  | 11 => some ⟨"OpMinus", []⟩
  | 12 => some ⟨"OpBang", []⟩
  | 13 => some ⟨"OpJumpNotTruthy", [2]⟩
  | 14 => some ⟨"OpJump", [2]⟩
  | 15 => some ⟨"OpNull", []⟩
  | 16 => some ⟨"OpGetGlobal", [2]⟩
  | 17 => some ⟨"OpSetGlobal", [2]⟩
  | 18 => some ⟨"OpArray", [2]⟩
  | 19 => some ⟨"OpHash", [2]⟩
  | 20 => some ⟨"OpIndex", []⟩
  | 21 => some ⟨"OpCall", [1]⟩
  | 22 => some ⟨"OpReturnValue", []⟩
  | 23 => some ⟨"OpReturn", []⟩
  | 24 => some ⟨"OpSetLocal", [1]⟩
  | 25 => some ⟨"OpGetLocal", [1]⟩
  | 26 => some ⟨"OpGetBuiltin", [1]⟩
  | 27 => some ⟨"OpClosure", [2, 1]⟩
  | 28 => some ⟨"OpGetFree", [1]⟩
  | 29 => some ⟨"OpCurrentClosure", []⟩
  | _ => none

/-- The operand bytes written by `Make`'s loop: the Go code preallocates a
zero-filled buffer of size `sum widths` and then writes each provided
operand big-endian at consecutive offsets, so the buffer is the
concatenation of the encoded operands (with trailing zero bytes for
operands that were not provided).  `uint16 o` and `byte o` truncate,
hence the explicit `% 256`. -/
def encodeOperands : List Nat → List Nat → List Nat
  | [], _ => []
  | w :: ws, [] => List.replicate (w + ws.sum) 0
  | w :: ws, o :: os =>
    (match w with
     | 2 => [o % 65536 / 256, o % 256]
     | 1 => [o % 256]
     | _ => List.replicate w 0) ++ encodeOperands ws os

/-- `code.Make`: encode a single instruction, opcode byte followed by its
big-endian operands. -/
def Make (op : Opcode) (operands : List Nat) : List Nat :=
  match Lookup op with
  | none => []
  | some d => op :: encodeOperands d.OperandWidths operands

/-- `code.ReadUint16`: big-endian decode of the first two bytes; `none`
models the Go panic when fewer than two bytes remain. -/
def ReadUint16 (ins : List Nat) : Option Nat :=
  match ins with
  | b0 :: b1 :: _ => some (256 * b0 + b1)
  | _ => none

/-- The decoding loop of `ReadOperands`: the Go code keeps a running byte
offset into `ins`; consuming the bytes of each operand in turn is the same
as dropping them, and the returned offset is the sum of the widths read.
`none` models the panic on insufficient bytes. -/
def readOperandsGo : List Nat → List Nat → Option (List Nat × Nat)
  | [], _ => some ([], 0)
  | w :: ws, ins =>
    match w with
    | 2 => do
      let v ← ReadUint16 ins
      let (rest, n) ← readOperandsGo ws (ins.drop 2)
      pure (v :: rest, 2 + n)
    | 1 => do
      let b ← ins.head?
      let (rest, n) ← readOperandsGo ws (ins.drop 1)
      pure (b :: rest, 1 + n)
    | _ => do
      -- widths other than 1 and 2 leave the preallocated 0 in place and
      -- advance the offset (no opcode in the table uses such a width)
      let (rest, n) ← readOperandsGo ws (ins.drop w)
      pure (0 :: rest, w + n)

/-- `code.ReadOperands`: decode the operands described by `def` from the
byte stream, returning them with the number of bytes read. -/
def ReadOperands (d : Definition) (ins : List Nat) : Option (List Nat × Nat) :=
  readOperandsGo d.OperandWidths ins

end Code

/-! ## Package `object`: the runtime value system (object.go, final version) -/

namespace Object

/-- The `ObjectType` string constants of object.go. -/
abbrev ObjectType := String

def INTEGER_OBJ : ObjectType := "INTEGER"
def BOOLEAN_OBJ : ObjectType := "BOOLEAN"
def NULL_OBJ : ObjectType := "NULL"
def RETURN_VALUE_OBJ : ObjectType := "RETURN_VALUE"
def ERROR_OBJ : ObjectType := "ERROR"
def FUNCTION_OBJ : ObjectType := "FUNCTION"
def STRING_OBJ : ObjectType := "STRING"
def BUILTIN_OBJ : ObjectType := "BUILTIN"
def ARRAY_OBJ : ObjectType := "ARRAY"
def HASH_OBJ : ObjectType := "HASH"
def COMPILED_FUNCTION_OBJ : ObjectType := "COMPILED_FUNCTION_OBJ"
def CLOSURE_OBJ : ObjectType := "CLOSURE"

/-- `object.HashKey`: a type tag and a `uint64` value (modelled as `Nat`
below `2 ^ 64`; the Go field `Type` is spelled `type`). -/
structure HashKey where
  type : ObjectType
  Value : Nat
deriving DecidableEq, Repr

/-- `object.CompiledFunction`: bytecode instructions plus the local and
parameter counts. -/
structure CompiledFunction where
  Instructions : List Nat
  NumLocals : Nat
  NumParameters : Nat
deriving DecidableEq, Repr

/-- The tagged runtime values of object.go.  `Builtin` carries the registry
name instead of the Go function pointer.  `goNil` stands for the nil
`object.Object` interface value, the zero value of the VM's preallocated
stack and globals slices; operations that would dereference it model the
corresponding Go panic.  Hash pairs are kept as an association list
`(HashKey, key object, value object)` in which the newest binding for a
`HashKey` wins, mirroring the Go map writes.  The tree-walker-only
`Function` variant is omitted: the compiler and VM never produce it. -/
inductive Obj where
  | Integer (Value : Int)
  | Boolean (Value : Bool)
  | Null
  | ReturnValue (Value : Obj)
  | Error (Message : String)
  | String (Value : String)
  | Builtin (Name : String)
  | Array (Elements : List Obj)
  | Hash (Pairs : List (HashKey × Obj × Obj))
  | CompiledFunction (Fn : CompiledFunction)
  | Closure (Fn : CompiledFunction) (Free : List Obj)
  | goNil

/-- `Type()` of each object kind (calling it on the nil interface is a Go
panic, so `goNil` has no type; callers treat `none` as a panic site). -/
def Obj.TypeTag : Obj → Option ObjectType
  | .Integer _ => some INTEGER_OBJ
  | .Boolean _ => some BOOLEAN_OBJ
  | .Null => some NULL_OBJ
  | .ReturnValue _ => some RETURN_VALUE_OBJ
  | .Error _ => some ERROR_OBJ
  | .String _ => some STRING_OBJ
  | .Builtin _ => some BUILTIN_OBJ
  | .Array _ => some ARRAY_OBJ
  | .Hash _ => some HASH_OBJ
  | .CompiledFunction _ => some COMPILED_FUNCTION_OBJ
  | .Closure _ _ => some CLOSURE_OBJ
  | .goNil => none

/-- Two's-complement wrap of Go `int64` arithmetic: explicit `% 2 ^ 64`
re-centred on `[-2 ^ 63, 2 ^ 63)`. -/
def wrap64 (x : Int) : Int := (x + 2 ^ 63) % 2 ^ 64 - 2 ^ 63

/-- Interpret a Go `int64` as `uint64` (the conversion in
`(*Integer).HashKey`). -/
def uint64OfInt (x : Int) : Nat := (x % 2 ^ 64).toNat

/-- UTF-8 bytes of a string (Go strings are byte slices; `hash/fnv` hashes
the bytes).  Written out on code points so that it evaluates in the
kernel. -/
def utf8Bytes (s : String) : List Nat :=
  s.data.flatMap fun c =>
    let n := c.toNat
    if n < 0x80 then [n]
    else if n < 0x800 then [0xC0 + n / 64, 0x80 + n % 64]
    else if n < 0x10000 then [0xE0 + n / 4096, 0x80 + n / 64 % 64, 0x80 + n % 64]
    else [0xF0 + n / 262144, 0x80 + n / 4096 % 64, 0x80 + n / 64 % 64, 0x80 + n % 64]

/-- 64-bit FNV-1a over a byte sequence (`hash/fnv`, used by
`(*String).HashKey`). -/
def fnv1a64 (bytes : List Nat) : Nat :=
  bytes.foldl (fun h b => (h ^^^ b) * 1099511628211 % 2 ^ 64) 14695981039346656037

/-- `HashKey()` for the hashable object kinds; `none` for everything else
(those kinds do not implement the `Hashable` interface). -/
def Obj.hashKey : Obj → Option HashKey
  | .Integer i => some ⟨INTEGER_OBJ, uint64OfInt i⟩
  | .Boolean b => some ⟨BOOLEAN_OBJ, if b then 1 else 0⟩
  | .String s => some ⟨STRING_OBJ, fnv1a64 (utf8Bytes s)⟩
  | _ => none

/-- Modelled from the spec: the ordered `object.Builtins` registry (its
defining file is not among the analysed sources; the order and names are
those of the spec's built-ins table, which the compiler's `New` relies on
for `DefineBuiltin` indices). -/
def Builtins : List String := ["len", "first", "last", "rest", "push", "puts"]

/-- Modelled from the spec: the behaviour of each built-in function
(section 4.6).  `none` models a Go `nil` result (the VM then pushes
`Null`); `puts` output is outside the modelled state. -/
def builtinFn (name : String) (args : List Obj) : Option Obj :=
  match name, args with
  | "len", [.String s] => some (.Integer s.length)
  | "len", [.Array xs] => some (.Integer xs.length)
  | "len", [_] => some (.Error "argument to \x60len\x60 not supported")
  | "len", _ => some (.Error "wrong number of arguments")
  | "first", [.Array xs] => some (xs.headD .Null)
  | "first", [_] => some (.Error "argument to \x60first\x60 must be ARRAY")
  | "first", _ => some (.Error "wrong number of arguments")
  | "last", [.Array xs] => some (xs.getLastD .Null)
  | "last", [_] => some (.Error "argument to \x60last\x60 must be ARRAY")
  | "last", _ => some (.Error "wrong number of arguments")
  | "rest", [.Array xs] => if xs.isEmpty then some .Null else some (.Array xs.tail)
  | "rest", [_] => some (.Error "argument to \x60rest\x60 must be ARRAY")
  | "rest", _ => some (.Error "wrong number of arguments")
  | "push", [.Array xs, x] => some (.Array (xs ++ [x]))
  | "push", [_, _] => some (.Error "argument to \x60push\x60 must be ARRAY")
  | "push", _ => some (.Error "wrong number of arguments")
  | "puts", _ => none
  | _, _ => none

end Object

/-! ## Compiler symbol table (symbol_table.go, final version) -/

namespace Compiler

/-- `compiler.SymbolScope` (note the source's literal `"FUNCTIOn"` for the
function scope). -/
abbrev SymbolScope := String

def LocalScope : SymbolScope := "LOCAL"
def GlobalScope : SymbolScope := "GLOBAL"
def BuiltinScope : SymbolScope := "BUILTIN"
def FreeScope : SymbolScope := "FREE"
def FunctionScope : SymbolScope := "FUNCTIOn"

/-- `compiler.Symbol`: name, scope and index. -/
structure Symbol where
  Name : String
  Scope : SymbolScope
  Index : Nat
deriving DecidableEq, Repr

/-- `compiler.SymbolTable`.  The Go `store` map is modelled as an
association list in which the newest binding for a name wins (the table is
only ever written and looked up, never iterated). -/
inductive SymbolTable where
  | mk (Outer : Option SymbolTable) (store : List (String × Symbol))
      (numDefinitions : Nat) (FreeSymbols : List Symbol)
deriving Repr

def SymbolTable.Outer : SymbolTable → Option SymbolTable
  | .mk o _ _ _ => o

def SymbolTable.store : SymbolTable → List (String × Symbol)
  | .mk _ s _ _ => s

def SymbolTable.numDefinitions : SymbolTable → Nat
  | .mk _ _ n _ => n

def SymbolTable.FreeSymbols : SymbolTable → List Symbol
  | .mk _ _ _ f => f

/-- Write `store[name] = sym` (newest binding first). -/
def storeSet (store : List (String × Symbol)) (name : String) (sym : Symbol) :
    List (String × Symbol) :=
  (name, sym) :: store

/-- Read `store[name]`. -/
def storeGet (store : List (String × Symbol)) (name : String) : Option Symbol :=
  (store.find? fun p => p.1 = name).map Prod.snd

/-- `NewSymbolTable`. -/
def NewSymbolTable : SymbolTable := .mk none [] 0 []

/-- `NewEnclosedSymbolTable`. -/
def NewEnclosedSymbolTable (outer : SymbolTable) : SymbolTable :=
  .mk (some outer) [] 0 []

/-- `(*SymbolTable).Define`: a fresh symbol whose index is the current
definition count; scope Global without an outer table, Local otherwise. -/
def SymbolTable.Define : SymbolTable → String → Symbol × SymbolTable
  | .mk outer store n free, name =>
    let scope := if outer.isNone then GlobalScope else LocalScope
    let symbol : Symbol := ⟨name, scope, n⟩
    (symbol, .mk outer (storeSet store name symbol) (n + 1) free)

/-- `(*SymbolTable).DefineBuiltin`: builtin scope, caller-provided index,
definition count untouched. -/
def SymbolTable.DefineBuiltin : SymbolTable → Nat → String → Symbol × SymbolTable
  | .mk outer store n free, index, name =>
    let symbol : Symbol := ⟨name, BuiltinScope, index⟩
    (symbol, .mk outer (storeSet store name symbol) n free)

/-- `(*SymbolTable).DefineFunctionName`: function scope, index 0. -/
def SymbolTable.DefineFunctionName : SymbolTable → String → Symbol × SymbolTable
  | .mk outer store n free, name =>
    let symbol : Symbol := ⟨name, FunctionScope, 0⟩
    (symbol, .mk outer (storeSet store name symbol) n free)

/-- `(*SymbolTable).defineFree`: record the original symbol in
`FreeSymbols` and store a Free-scoped copy whose index is its position
there. -/
def SymbolTable.defineFree : SymbolTable → Symbol → Symbol × SymbolTable
  | .mk outer store n free, original =>
    let free' := free ++ [original]
    let symbol : Symbol := ⟨original.Name, FreeScope, free'.length - 1⟩
    (symbol, .mk outer (storeSet store original.Name symbol) n free')

/-- `(*SymbolTable).Resolve`.  The Go method mutates the receiver (and,
recursively, the enclosing tables) through pointers when it promotes a
symbol to a free variable, so the model returns the updated table chain
alongside the result. -/
def SymbolTable.Resolve : SymbolTable → String → Option Symbol × SymbolTable
  | st@(.mk outer store _ _), name =>
    match storeGet store name with
    | some symbol => (some symbol, st)
    | none =>
      match outer with
      | none => (none, st)
      | some out =>
        let (res, out') := out.Resolve name
        let st' : SymbolTable :=
          .mk (some out') st.store st.numDefinitions st.FreeSymbols
        match res with
        | none => (none, st')
        | some symbol =>
          if symbol.Scope = GlobalScope ∨ symbol.Scope = BuiltinScope then
            (some symbol, st')
          else
            let (free, st'') := st'.defineFree symbol
            (some free, st'')

end Compiler

/-! ## Package `ast` (final version with functions, arrays, hashes)

Fields that hold a Go interface value (`ast.Expression`) or a possibly-nil
pointer are modelled as `Option`: `none` is the nil sub-tree produced when
the parser abandons a construct.  `Statement.LetStatementNil` stands for a
nil `*ast.LetStatement` wrapped in a non-nil `ast.Statement` interface
value — the value `parseStatement` hands to `ParseProgram` when a let
statement fails (the Go `stmt != nil` test does not filter it out). -/

namespace Ast

/-- `ast.Identifier`. -/
structure Identifier where
  token : Token
  Value : String
deriving DecidableEq, Repr

mutual

inductive Expression where
  | Identifier (token : Token) (Value : String)
  | IntegerLiteral (token : Token) (Value : Int)
  | PrefixExpression (token : Token) (Operator : String) (Right : Option Expression)
  | InfixExpression (token : Token) (Left : Option Expression) (Operator : String)
      (Right : Option Expression)
  | Boolean (token : Token) (Value : Bool)
  | IfExpression (token : Token) (Condition : Option Expression)
      (Consequence : Option BlockStatement) (Alternative : Option BlockStatement)
  | FunctionLiteral (token : Token) (Parameters : List Identifier)
      (Body : Option BlockStatement) (Name : String)
  | CallExpression (token : Token) (Function : Option Expression)
      (Arguments : List (Option Expression))
  | StringLiteral (token : Token) (Value : String)
  | ArrayLiteral (token : Token) (Elements : List (Option Expression))
  | IndexExpression (token : Token) (Left : Option Expression) (Index : Option Expression)
  | HashLiteral (token : Token) (Pairs : List (Option Expression × Option Expression))

inductive BlockStatement where
  | mk (token : Token) (Statements : List Statement)

inductive Statement where
  | LetStatement (token : Token) (Name : Identifier) (Value : Option Expression)
  | LetStatementNil
  | ReturnStatement (token : Token) (ReturnValue : Option Expression)
  | ExpressionStatement (token : Token) (expression : Option Expression)

end

mutual

/-- `String()` of an expression node (ast.go).  Note that integer, boolean
and string literals print their token literal, not their value. -/
def Expression.stringOf : Expression → String
  | .Identifier _ v => v
  | .IntegerLiteral tok _ => tok.Literal
  | .PrefixExpression _ op r => "(" ++ op ++ exprOptString r ++ ")"
  | .InfixExpression _ l op r =>
      "(" ++ exprOptString l ++ " " ++ op ++ " " ++ exprOptString r ++ ")"
  | .Boolean tok _ => tok.Literal
  | .IfExpression _ cond cons alt =>
      "if" ++ exprOptString cond ++ " " ++ blockOptString cons ++
        (match alt with
         | none => ""
         | some a => "else " ++ blockString a)
  | .FunctionLiteral tok ps body name =>
      tok.Literal ++ (if name ≠ "" then name else "") ++ "(" ++
        String.intercalate ", " (ps.map (·.Value)) ++ ") " ++ blockOptString body
  | .CallExpression _ f args =>
      exprOptString f ++ "(" ++ String.intercalate ", " (exprOptStrings args) ++ ")"
  | .StringLiteral tok _ => tok.Literal
  | .ArrayLiteral _ elems =>
      "[" ++ String.intercalate ", " (exprOptStrings elems) ++ "]"
  | .IndexExpression _ l i =>
      "(" ++ exprOptString l ++ "[" ++ exprOptString i ++ "])"
  | .HashLiteral _ pairs =>
      "\x7b" ++ String.intercalate ", " (pairStrings pairs) ++ "\x7d"

/-- `String()` through a nilable expression slot.  Calling `String()` on a
nil interface would be a Go panic; it is modelled as `""` (no verified
program reaches it). -/
def exprOptString : Option Expression → String
  | none => ""
  | some e => e.stringOf

def exprOptStrings : List (Option Expression) → List String
  | [] => []
  | e :: es => exprOptString e :: exprOptStrings es

def pairStrings : List (Option Expression × Option Expression) → List String
  | [] => []
  | (k, v) :: ps => (exprOptString k ++ ":" ++ exprOptString v) :: pairStrings ps

def blockString : BlockStatement → String
  | .mk _ stmts => stmtStrings stmts

def blockOptString : Option BlockStatement → String
  | none => ""
  | some b => blockString b

def stmtStrings : List Statement → String
  | [] => ""
  | s :: ss => s.stringOf ++ stmtStrings ss

/-- `String()` of a statement node. -/
def Statement.stringOf : Statement → String
  | .LetStatement tok name value =>
      tok.Literal ++ " " ++ name.Value ++ " = " ++
        (match value with | none => "" | some v => v.stringOf) ++ ";"
  | .LetStatementNil => ""
  | .ReturnStatement tok value =>
      tok.Literal ++ " " ++
        (match value with | none => "" | some v => v.stringOf) ++ ";"
  | .ExpressionStatement _ e =>
      match e with | none => "" | some v => v.stringOf

end

/-- `ast.Program` (its statement list; `String()` concatenates the
statements). -/
structure Program where
  Statements : List Statement

end Ast

/-! ## Package `compiler` (compiler.go, final version) -/

namespace Compiler

/-- `compiler.EmittedInstruction`.  The Go zero value has `Opcode = 0`. -/
structure EmittedInstruction where
  Opcode : Code.Opcode
  Position : Nat
deriving DecidableEq, Repr

/-- `compiler.CompilationScope`. -/
structure CompilationScope where
  instructions : List Nat
  lastInstruction : EmittedInstruction
  previousInstruction : EmittedInstruction
deriving DecidableEq, Repr

/-- A fresh scope, as built by `New` and `enterScope`. -/
def emptyScope : CompilationScope := ⟨[], ⟨0, 0⟩, ⟨0, 0⟩⟩

/-- `compiler.Compiler`: constants pool, symbol table, scope stack and
current scope index. -/
structure Compiler where
  constants : List Object.Obj
  symbolTable : SymbolTable
  scopes : List CompilationScope
  scopeIndex : Nat

/-- `compiler.New`: one main scope; every built-in predefined at its
registry index. -/
def New : Compiler :=
  let symbolTable := (Object.Builtins.enum.foldl
    (fun st p => (st.DefineBuiltin p.1 p.2).2) NewSymbolTable)
  ⟨[], symbolTable, [emptyScope], 0⟩

/-- `currentInstructions`. -/
def Compiler.currentInstructions (c : Compiler) : List Nat :=
  (c.scopes.getD c.scopeIndex emptyScope).instructions

/-- Replace the scope at `scopeIndex` (the Go code mutates
`c.scopes[c.scopeIndex]` in place). -/
def Compiler.setCurrentScope (c : Compiler) (s : CompilationScope) : Compiler :=
  { c with scopes := c.scopes.set c.scopeIndex s }

def Compiler.currentScope (c : Compiler) : CompilationScope :=
  c.scopes.getD c.scopeIndex emptyScope

/-- `addConstant`: append and return the new constant's index. -/
def Compiler.addConstant (c : Compiler) (obj : Object.Obj) : Nat × Compiler :=
  (c.constants.length, { c with constants := c.constants ++ [obj] })

/-- `addInstruction`: append bytes to the current scope's instructions and
return the starting position of the new instruction. -/
def Compiler.addInstruction (c : Compiler) (ins : List Nat) : Nat × Compiler :=
  let scope := c.currentScope
  (scope.instructions.length,
   c.setCurrentScope { scope with instructions := scope.instructions ++ ins })

/-- `setLastInstruction`. -/
def Compiler.setLastInstruction (c : Compiler) (op : Code.Opcode) (pos : Nat) : Compiler :=
  let scope := c.currentScope
  c.setCurrentScope
    { scope with previousInstruction := scope.lastInstruction
                 lastInstruction := ⟨op, pos⟩ }

/-- `emit`: make the instruction, add it, record it as last emitted. -/
def Compiler.emit (c : Compiler) (op : Code.Opcode) (operands : List Nat) : Nat × Compiler :=
  let ins := Code.Make op operands
  let (pos, c) := c.addInstruction ins
  (pos, c.setLastInstruction op pos)

/-- `lastInstructionIs`. -/
def Compiler.lastInstructionIs (c : Compiler) (op : Code.Opcode) : Bool :=
  c.currentScope.lastInstruction.Opcode = op

/-- `removeLastPop`: truncate the instructions at the last instruction's
position and restore the previous instruction as last. -/
def Compiler.removeLastPop (c : Compiler) : Compiler :=
  let scope := c.currentScope
  c.setCurrentScope
    { scope with instructions := scope.instructions.take scope.lastInstruction.Position
                 lastInstruction := scope.previousInstruction }

/-- `replaceInstruction`: overwrite the bytes starting at `pos` with the
new instruction's bytes (`List.set` beyond the end is a no-op where Go
would panic; the compiler only replaces instructions that exist). -/
def Compiler.replaceInstruction (c : Compiler) (pos : Nat) (newInstruction : List Nat) :
    Compiler :=
  let scope := c.currentScope
  let ins := newInstruction.enum.foldl
    (fun acc p => acc.set (pos + p.1) p.2) scope.instructions
  c.setCurrentScope { scope with instructions := ins }

/-- `changeOperand`: re-make the instruction at `opPos` with the new
operand and splice it in. -/
def Compiler.changeOperand (c : Compiler) (opPos : Nat) (operand : Nat) : Compiler :=
  let op := c.currentInstructions.getD opPos 0
  c.replaceInstruction opPos (Code.Make op [operand])

/-- `replaceLastPopWithReturn`. -/
def Compiler.replaceLastPopWithReturn (c : Compiler) : Compiler :=
  let lastPos := c.currentScope.lastInstruction.Position
  let c := c.replaceInstruction lastPos (Code.Make Code.OpReturnValue [])
  let scope := c.currentScope
  c.setCurrentScope
    { scope with lastInstruction := { scope.lastInstruction with Opcode := Code.OpReturnValue } }

/-- `enterScope`: push a fresh scope and enclose the symbol table. -/
def Compiler.enterScope (c : Compiler) : Compiler :=
  { c with scopes := c.scopes ++ [emptyScope]
           scopeIndex := c.scopeIndex + 1
           symbolTable := NewEnclosedSymbolTable c.symbolTable }

/-- `leaveScope`: pop the current scope, returning its instructions, and
step back to the outer symbol table (`enterScope`/`leaveScope` are always
balanced, so the outer table exists). -/
def Compiler.leaveScope (c : Compiler) : List Nat × Compiler :=
  (c.currentInstructions,
   { c with scopes := c.scopes.dropLast
            scopeIndex := c.scopeIndex - 1
            symbolTable := c.symbolTable.Outer.getD NewSymbolTable })

/-- `loadSymbol`: emit the load instruction matching the symbol's scope
(the Go switch has no default case, so an unknown scope emits nothing). -/
def Compiler.loadSymbol (c : Compiler) (s : Symbol) : Compiler :=
  if s.Scope = GlobalScope then (c.emit Code.OpGetGlobal [s.Index]).2
  else if s.Scope = LocalScope then (c.emit Code.OpGetLocal [s.Index]).2
  else if s.Scope = BuiltinScope then (c.emit Code.OpGetBuiltin [s.Index]).2
  else if s.Scope = FreeScope then (c.emit Code.OpGetFree [s.Index]).2
  else if s.Scope = FunctionScope then (c.emit Code.OpCurrentClosure []).2
  else c

/-- The Go sort key of a hash pair: the stringified key expression. -/
def pairKeyString (p : Option Ast.Expression × Option Ast.Expression) : String :=
  Ast.exprOptString p.1

/-- The key sort of the `*ast.HashLiteral` case: Go collects the map keys
and sorts them with `sort.Slice` and the comparison
`keys[i].String() < keys[j].String()`, then compiles each key with its
mapped value.  Since every (pointer-distinct) key carries exactly one
value, this equals sorting the key/value pairs by stringified key.
`sort.Slice` is unstable, so for pairs whose stringified keys collide the
result order is unspecified; the stable insertion sort below fixes one
admissible outcome and coincides with Go whenever the stringified keys are
pairwise distinct.  Go string `<` is byte-lexicographic, modelled as the
lexicographic order on the key's character list. -/
def sortHashPairs (pairs : List (Option Ast.Expression × Option Ast.Expression)) :
    List (Option Ast.Expression × Option Ast.Expression) :=
  List.insertionSort (fun p q => (pairKeyString p).data ≤ (pairKeyString q).data) pairs

mutual

/-- `Compile` on a statement list (the `*ast.Program` and
`*ast.BlockStatement` loops). -/
def compileStmtList : Nat → List Ast.Statement → Compiler → Except String Compiler
  | 0, _, _ => throw "model: compiler out of fuel"
  | fuel + 1, stmts, c =>
    match stmts with
    | [] => .ok c
    | s :: rest => do
      let c ← compileStmt fuel s c
      compileStmtList fuel rest c

/-- `Compile` on a single statement. -/
def compileStmt : Nat → Ast.Statement → Compiler → Except String Compiler
  | 0, _, _ => throw "model: compiler out of fuel"
  | fuel + 1, stmt, c =>
    match stmt with
    | .LetStatement _ name value => do
      -- define the symbol before compiling the value
      let (symbol, st) := c.symbolTable.Define name.Value
      let c := { c with symbolTable := st }
      let c ← compileExpr fuel value c
      if symbol.Scope = GlobalScope then
        .ok (c.emit Code.OpSetGlobal [symbol.Index]).2
      else
        .ok (c.emit Code.OpSetLocal [symbol.Index]).2
    | .LetStatementNil =>
      -- a nil *ast.LetStatement still matches the LetStatement case and
      -- dereferencing node.Name is a Go panic
      throw "panic: nil pointer dereference"
    | .ReturnStatement _ value => do
      let c ← compileExpr fuel value c
      .ok (c.emit Code.OpReturnValue []).2
    | .ExpressionStatement _ e => do
      let c ← compileExpr fuel e c
      .ok (c.emit Code.OpPop []).2

/-- `Compile` on a `*ast.BlockStatement`; a nil block pointer would panic
on the statement-range (only hand-built ASTs can contain one). -/
def compileBlock : Nat → Option Ast.BlockStatement → Compiler → Except String Compiler
  | 0, _, _ => throw "model: compiler out of fuel"
  | fuel + 1, block, c =>
    match block with
    | none => throw "panic: nil pointer dereference"
    | some (.mk _ stmts) => compileStmtList fuel stmts c

/-- `Compile` on an expression slot.  A nil `ast.Expression` interface
matches no case of the Go type switch, so compiling it does nothing. -/
def compileExpr : Nat → Option Ast.Expression → Compiler → Except String Compiler
  | 0, _, _ => throw "model: compiler out of fuel"
  | fuel + 1, node, c =>
    match node with
    | none => .ok c
    | some (.InfixExpression _ left op right) =>
      if op = "<" then do
        -- compile right then left and emit GreaterThan
        let c ← compileExpr fuel right c
        let c ← compileExpr fuel left c
        .ok (c.emit Code.OpGreaterThan []).2
      else do
        let c ← compileExpr fuel left c
        let c ← compileExpr fuel right c
        if op = "+" then .ok (c.emit Code.OpAdd []).2
        else if op = "-" then .ok (c.emit Code.OpSub []).2
        else if op = "*" then .ok (c.emit Code.OpMul []).2
        else if op = "/" then .ok (c.emit Code.OpDiv []).2
        else if op = ">" then .ok (c.emit Code.OpGreaterThan []).2
        else if op = "==" then .ok (c.emit Code.OpEqual []).2
        else if op = "!=" then .ok (c.emit Code.OpNotEqual []).2
        else throw ("unknown operator " ++ op)
    | some (.PrefixExpression _ op right) => do
      let c ← compileExpr fuel right c
      if op = "-" then .ok (c.emit Code.OpMinus []).2
      else if op = "!" then .ok (c.emit Code.OpBang []).2
      else throw ("unknown operator: " ++ op)
    | some (.IfExpression _ cond cons alt) => do
      let c ← compileExpr fuel cond c
      let (jumpNotTruthyPos, c) := c.emit Code.OpJumpNotTruthy [9999]
      let c ← compileBlock fuel cons c
      let c := if c.lastInstructionIs Code.OpPop then c.removeLastPop else c
      let (jumpPos, c) := c.emit Code.OpJump [9999]
      let afterConsequencePos := c.currentInstructions.length
      let c := c.changeOperand jumpNotTruthyPos afterConsequencePos
      let c ←
        match alt with
        | none => .ok (c.emit Code.OpNull []).2
        | some a => do
          let c ← compileBlock fuel (some a) c
          .ok (if c.lastInstructionIs Code.OpPop then c.removeLastPop else c)
      let afterAlternativePos := c.currentInstructions.length
      .ok (c.changeOperand jumpPos afterAlternativePos)
    | some (.Identifier _ value) =>
      let (res, st) := c.symbolTable.Resolve value
      let c := { c with symbolTable := st }
      match res with
      | none => throw ("undefined variable: " ++ value)
      | some symbol => .ok (c.loadSymbol symbol)
    | some (.ArrayLiteral _ elems) => do
      let c ← compileExprList fuel elems c
      .ok (c.emit Code.OpArray [elems.length]).2
    | some (.HashLiteral _ pairs) => do
      let c ← compilePairs fuel (sortHashPairs pairs) c
      .ok (c.emit Code.OpHash [pairs.length * 2]).2
    | some (.IndexExpression _ left index) => do
      let c ← compileExpr fuel left c
      let c ← compileExpr fuel index c
      .ok (c.emit Code.OpIndex []).2
    | some (.FunctionLiteral _ params body name) => do
      let c := c.enterScope
      let c :=
        if name ≠ "" then { c with symbolTable := (c.symbolTable.DefineFunctionName name).2 }
        else c
      let c := params.foldl
        (fun c p => { c with symbolTable := (c.symbolTable.Define p.Value).2 }) c
      let c ← compileBlock fuel body c
      let c := if c.lastInstructionIs Code.OpPop then c.replaceLastPopWithReturn else c
      let c := if !c.lastInstructionIs Code.OpReturnValue then (c.emit Code.OpReturn []).2 else c
      let freeSymbols := c.symbolTable.FreeSymbols
      let numLocals := c.symbolTable.numDefinitions
      let (instructions, c) := c.leaveScope
      let c := freeSymbols.foldl Compiler.loadSymbol c
      let compiledFn : Object.CompiledFunction := ⟨instructions, numLocals, params.length⟩
      let (fnIndex, c) := c.addConstant (.CompiledFunction compiledFn)
      .ok (c.emit Code.OpClosure [fnIndex, freeSymbols.length]).2
    | some (.CallExpression _ fn args) => do
      let c ← compileExpr fuel fn c
      let c ← compileExprList fuel args c
      .ok (c.emit Code.OpCall [args.length]).2
    | some (.IntegerLiteral _ v) =>
      let (i, c) := c.addConstant (.Integer v)
      .ok (c.emit Code.OpConstant [i]).2
    | some (.StringLiteral _ v) =>
      let (i, c) := c.addConstant (.String v)
      .ok (c.emit Code.OpConstant [i]).2
    | some (.Boolean _ v) =>
      if v then .ok (c.emit Code.OpTrue []).2 else .ok (c.emit Code.OpFalse []).2

/-- Compile each element of an expression list in order. -/
def compileExprList : Nat → List (Option Ast.Expression) → Compiler → Except String Compiler
  | 0, _, _ => throw "model: compiler out of fuel"
  | fuel + 1, elems, c =>
    match elems with
    | [] => .ok c
    | e :: rest => do
      let c ← compileExpr fuel e c
      compileExprList fuel rest c

/-- Compile each key/value pair in order (key first). -/
def compilePairs : Nat → List (Option Ast.Expression × Option Ast.Expression) → Compiler →
    Except String Compiler
  | 0, _, _ => throw "model: compiler out of fuel"
  | fuel + 1, pairs, c =>
    match pairs with
    | [] => .ok c
    | (k, v) :: rest => do
      let c ← compileExpr fuel k c
      let c ← compileExpr fuel v c
      compilePairs fuel rest c

end

/-- `compiler.Bytecode`. -/
structure Bytecode where
  Instructions : List Nat
  Constants : List Object.Obj

/-- `(*Compiler).Bytecode()`. -/
def Compiler.bytecode (c : Compiler) : Bytecode :=
  ⟨c.currentInstructions, c.constants⟩

/-- Compile a whole program with `New`'s initial state. -/
def compileProgram (fuel : Nat) (p : Ast.Program) : Except String Bytecode :=
  (compileStmtList fuel p.Statements New).map Compiler.bytecode

end Compiler

/-! ## Package `vm` (vm.go and frame.go as shipped)

This VM snapshot predates closures: its `Run` switch has no case for
`OpClosure`, `OpGetFree` or `OpCurrentClosure` (unmatched opcodes fall
through the switch and execution continues at the next byte), `New` puts
the bare `CompiledFunction` into the main frame, and `executeCall`
dispatches on `*object.CompiledFunction` / `*object.Builtin` only.

Outcomes distinguish an error returned by `Run` (`err`) from a Go runtime
panic (`panic`: out-of-range slice index, nil interface dereference,
division by zero); `timeout` is a model artefact for exhausted fuel. -/

namespace Vm

def StackSize : Nat := 2048
def GlobalsSize : Nat := 65536
def MaxFrames : Nat := 1024

/-- `vm.Frame`: executing function, instruction pointer (starts at `-1`)
and base pointer. -/
structure Frame where
  fn : Object.CompiledFunction
  ip : Int
  basePointer : Nat

/-- `vm.NewFrame`. -/
def NewFrame (fn : Object.CompiledFunction) (basePointer : Nat) : Frame :=
  ⟨fn, -1, basePointer⟩

/-- `(*Frame).Instructions`. -/
def Frame.Instructions (f : Frame) : List Nat := f.fn.Instructions

/-- Step outcome: normal continuation, error returned by `Run`, or Go
runtime panic. -/
inductive Outcome (α : Type) where
  | ok (val : α)
  | err (msg : String)
  | panic (msg : String)

instance : Monad Outcome where
  pure := .ok
  bind x f := match x with
    | .ok v => f v
    | .err m => .err m
    | .panic m => .panic m

/-- The VM state.  The fixed-size Go slices `stack` (2048) and `globals`
(65536) are modelled as total functions whose unwritten slots hold the nil
interface value `goNil`, with an explicit bound check wherever the Go code
indexes them; `frames` holds the occupied prefix of the 1024-slot frame
slice with the current frame (`frames[framesIndex-1]`) first. -/
structure VM where
  constants : List Object.Obj
  stack : Nat → Object.Obj
  sp : Nat
  globals : Nat → Object.Obj
  frames : List Frame
  framesIndex : Nat

/-- `vm.New`: wrap the top-level instructions in a `CompiledFunction`
(`NumLocals` and `NumParameters` are the zero value 0) and push it as the
main frame with base pointer 0. -/
def New (bytecode : Compiler.Bytecode) : VM :=
  let mainFn : Object.CompiledFunction := ⟨bytecode.Instructions, 0, 0⟩
  let mainFrame := NewFrame mainFn 0
  { constants := bytecode.Constants
    stack := fun _ => .goNil
    sp := 0
    globals := fun _ => .goNil
    frames := [mainFrame]
    framesIndex := 1 }

/-- `NewWithGlobalStore`: reuse an existing globals store. -/
def NewWithGlobalStore (bytecode : Compiler.Bytecode) (s : Nat → Object.Obj) : VM :=
  { New bytecode with globals := s }

/-- `pushFrame`: writing `frames[framesIndex]` panics when the 1024-slot
slice is full — the Go code has no frame-depth check. -/
def VM.pushFrame (vm : VM) (f : Frame) : Outcome VM :=
  if vm.framesIndex < MaxFrames then
    .ok { vm with frames := f :: vm.frames, framesIndex := vm.framesIndex + 1 }
  else
    .panic "index out of range"

/-- `popFrame`; `frames[-1]` would panic. -/
def VM.popFrame (vm : VM) : Outcome (Frame × VM) :=
  match vm.frames with
  | f :: rest => .ok (f, { vm with frames := rest, framesIndex := vm.framesIndex - 1 })
  | [] => .panic "index out of range"

/-- Mutate the current frame in place (the Go code updates it through the
pointer returned by `currentFrame`). -/
def VM.withCurrentFrame (vm : VM) (f : Frame → Frame) : VM :=
  { vm with frames := match vm.frames with
                      | [] => []
                      | fr :: rest => f fr :: rest }

/-- `push`: bounds check against `StackSize`, then write at `sp`. -/
def VM.push (vm : VM) (o : Object.Obj) : Outcome VM :=
  if StackSize ≤ vm.sp then
    .err "stack overflow"
  else
    .ok { vm with stack := fun j => if j = vm.sp then o else vm.stack j
                  sp := vm.sp + 1 }

/-- `pop`: read `stack[sp-1]` (a panic when `sp = 0`) and decrement `sp`;
the slot itself is left in place. -/
def VM.pop (vm : VM) : Outcome (Object.Obj × VM) :=
  if vm.sp = 0 then
    .panic "index out of range"
  else
    .ok (vm.stack (vm.sp - 1), { vm with sp := vm.sp - 1 })

/-- `LastPoppedStackElem`: the slot just above the stack pointer. -/
def VM.LastPoppedStackElem (vm : VM) : Object.Obj := vm.stack vm.sp

/-- An unchecked Go write `stack[i] = o` (panics outside the slice). -/
def VM.stackWrite (vm : VM) (i : Nat) (o : Object.Obj) : Outcome VM :=
  if i < StackSize then
    .ok { vm with stack := fun j => if j = i then o else vm.stack j }
  else
    .panic "index out of range"

/-- An unchecked Go write `globals[i] = o` (indices come from 16-bit
operands, so the bound can never actually be exceeded). -/
def VM.globalsWrite (vm : VM) (i : Nat) (o : Object.Obj) : Outcome VM :=
  if i < GlobalsSize then
    .ok { vm with globals := fun j => if j = i then o else vm.globals j }
  else
    .panic "index out of range"

/-- Read `constants[i]` (`vm.constants` is exactly the compiler's pool, so
an out-of-range index panics). -/
def VM.constantsGet (vm : VM) (i : Nat) : Outcome Object.Obj :=
  match vm.constants.get? i with
  | some o => .ok o
  | none => .panic "index out of range"

/-- Decode the big-endian `uint16` operand starting at byte `i` (slicing
past the end or decoding fewer than two bytes panics). -/
def readUint16At (ins : List Nat) (i : Nat) : Outcome Nat :=
  match ins.get? i, ins.get? (i + 1) with
  | some hi, some lo => .ok (256 * hi + lo)
  | _, _ => .panic "index out of range"

/-- Read the one-byte operand at byte `i`. -/
def readByteAt (ins : List Nat) (i : Nat) : Outcome Nat :=
  match ins.get? i with
  | some b => .ok b
  | none => .panic "index out of range"

/-- `isTruthy`: false and null are falsy, everything else (including a nil
interface, which hits the default case) is truthy. -/
def isTruthy : Object.Obj → Bool
  | .Boolean b => b
  | .Null => false
  | _ => true

/-- `nativeBoolToBooleanObject`. -/
def nativeBoolToBooleanObject (b : Bool) : Object.Obj := .Boolean b

/-- The Go `right == left` interface-identity comparison of
`executeComparison`'s default case.  The runtime booleans and null are the
interned singletons `True`/`False`/`Null`, for which identity coincides
with this structural test; values of any other kind are freshly allocated
at distinct addresses whenever they reach this comparison, so the model
answers `false` for them (no verified claim exercises that path). -/
def goIdentityEq : Object.Obj → Object.Obj → Bool
  | .Boolean a, .Boolean b => a = b
  | .Null, .Null => true
  | _, _ => false

/-- `executeBinaryIntegerOperation` (Go `int64` arithmetic wraps; division
by zero is a runtime panic; the quotient truncates toward zero). -/
def VM.executeBinaryIntegerOperation (vm : VM) (op : Code.Opcode)
    (left right : Object.Obj) : Outcome VM :=
  match left, right with
  | .Integer leftValue, .Integer rightValue =>
    if op = Code.OpAdd then vm.push (.Integer (Object.wrap64 (leftValue + rightValue)))
    else if op = Code.OpSub then vm.push (.Integer (Object.wrap64 (leftValue - rightValue)))
    else if op = Code.OpMul then vm.push (.Integer (Object.wrap64 (leftValue * rightValue)))
    else if op = Code.OpDiv then
      if rightValue = 0 then .panic "integer divide by zero"
      else vm.push (.Integer (Object.wrap64 (leftValue.tdiv rightValue)))
    else .err ("unknown integer operation: " ++ toString op)
  | _, _ => .panic "interface conversion"

/-- `executeBinaryStringOperation`. -/
def VM.executeBinaryStringOperation (vm : VM) (op : Code.Opcode)
    (left right : Object.Obj) : Outcome VM :=
  if op ≠ Code.OpAdd then
    .err ("unknown string operation: " ++ toString op)
  else
    match left, right with
    | .String leftValue, .String rightValue => vm.push (.String (leftValue ++ rightValue))
    | _, _ => .panic "interface conversion"

/-- `executeBinaryOperation`: pop right then left, dispatch on the two
type tags (calling `Type()` on a nil interface panics). -/
def VM.executeBinaryOperation (vm : VM) (op : Code.Opcode) : Outcome VM := do
  let (right, vm) ← vm.pop
  let (left, vm) ← vm.pop
  match left.TypeTag, right.TypeTag with
  | some leftType, some rightType =>
    if leftType = Object.INTEGER_OBJ ∧ rightType = Object.INTEGER_OBJ then
      vm.executeBinaryIntegerOperation op left right
    else if leftType = Object.STRING_OBJ ∧ rightType = Object.STRING_OBJ then
      vm.executeBinaryStringOperation op left right
    else
      .err ("unsupported types for binary operation: " ++ leftType ++ ", " ++ rightType)
  | _, _ => .panic "nil pointer dereference"

/-- `executeIntegerComparison`. -/
def VM.executeIntegerComparison (vm : VM) (op : Code.Opcode)
    (left right : Object.Obj) : Outcome VM :=
  match left, right with
  | .Integer leftValue, .Integer rightValue =>
    if op = Code.OpGreaterThan then
      vm.push (nativeBoolToBooleanObject (decide (rightValue < leftValue)))
    else if op = Code.OpEqual then
      vm.push (nativeBoolToBooleanObject (decide (leftValue = rightValue)))
    else if op = Code.OpNotEqual then
      vm.push (nativeBoolToBooleanObject (!decide (leftValue = rightValue)))
    else .err ("unknown operator: " ++ toString op)
  | _, _ => .panic "interface conversion"

/-- `executeComparison`: integers structurally, anything else by interface
identity. -/
def VM.executeComparison (vm : VM) (op : Code.Opcode) : Outcome VM := do
  let (right, vm) ← vm.pop
  let (left, vm) ← vm.pop
  match left.TypeTag, right.TypeTag with
  | some leftType, some rightType =>
    if leftType = Object.INTEGER_OBJ ∧ rightType = Object.INTEGER_OBJ then
      vm.executeIntegerComparison op left right
    else if op = Code.OpEqual then
      vm.push (nativeBoolToBooleanObject (goIdentityEq right left))
    else if op = Code.OpNotEqual then
      vm.push (nativeBoolToBooleanObject (!goIdentityEq right left))
    else
      .err ("unknown operator: " ++ toString op ++ ", (" ++ leftType ++ " " ++ rightType ++ ")")
  | _, _ => .panic "nil pointer dereference"

/-- `executeBangOperator`: the operand is compared against the singletons
`True`, `False`, `Null` (everything else, including a nil interface, is
the default case). -/
def VM.executeBangOperator (vm : VM) : Outcome VM := do
  let (operand, vm) ← vm.pop
  match operand with
  | .Boolean true => vm.push (.Boolean false)
  | .Boolean false => vm.push (.Boolean true)
  | .Null => vm.push (.Boolean true)
  | _ => vm.push (.Boolean false)

/-- `executeMinusOperator`. -/
def VM.executeMinusOperator (vm : VM) : Outcome VM := do
  let (right, vm) ← vm.pop
  match right.TypeTag with
  | none => .panic "nil pointer dereference"
  | some t =>
    if t ≠ Object.INTEGER_OBJ then
      .err ("unsupported type for negation: " ++ t)
    else
      match right with
      | .Integer rightValue => vm.push (.Integer (Object.wrap64 (-rightValue)))
      | _ => .panic "interface conversion"

/-- `buildArray`: copy `stack[startIndex .. endIndex)`.  The caller's
`startIndex` is `sp - numElements`; when `numElements > sp` the Go loop
reads a negative index and panics, which the caller checks for. -/
def VM.buildArray (vm : VM) (startIndex endIndex : Nat) : Object.Obj :=
  .Array ((List.range (endIndex - startIndex)).map fun k => vm.stack (startIndex + k))

/-- The pair-building loop of `buildHash` over
`stack[startIndex .. endIndex)` (two slots per pair; newest binding for a
`HashKey` first). -/
def VM.buildHashGo (vm : VM) : Nat → Nat →
    List (Object.HashKey × Object.Obj × Object.Obj) →
    Outcome (List (Object.HashKey × Object.Obj × Object.Obj))
  | i, endIndex, acc =>
    if _h : i < endIndex then
      let key := vm.stack i
      let value := vm.stack (i + 1)
      match key.hashKey with
      | none =>
        match key.TypeTag with
        | none => .panic "nil pointer dereference"
        | some t => .err ("unusable as hash key: " ++ t)
      | some hk => vm.buildHashGo (i + 2) endIndex ((hk, key, value) :: acc)
    else
      .ok acc
  termination_by i endIndex _ => endIndex - i

/-- `buildHash`. -/
def VM.buildHash (vm : VM) (startIndex endIndex : Nat) : Outcome Object.Obj := do
  let pairs ← vm.buildHashGo startIndex endIndex []
  .ok (.Hash pairs)

/-- `executeArrayIndex`: bounds-check and push `Null` or the element. -/
def VM.executeArrayIndex (vm : VM) (left index : Object.Obj) : Outcome VM :=
  match left, index with
  | .Array elements, .Integer i =>
    let max : Int := (elements.length : Int) - 1
    if i < 0 ∨ max < i then
      vm.push .Null
    else
      vm.push (elements.getD i.toNat .goNil)
  | _, _ => .panic "interface conversion"

/-- `executeHashIndex`. -/
def VM.executeHashIndex (vm : VM) (hash index : Object.Obj) : Outcome VM :=
  match hash with
  | .Hash pairs =>
    (match index.hashKey with
     | none =>
       (match index.TypeTag with
        | none => .panic "nil pointer dereference"
        | some t => .err ("unusable as hash key: " ++ t))
     | some hk =>
       match (pairs.find? fun p => p.1 = hk).map (fun p => p.2.2) with
       | none => vm.push .Null
       | some v => vm.push v)
  | _ => .panic "interface conversion"

/-- `executeIndexExpression`: both type tags are inspected by the first
case's condition, so a nil interface on either side panics. -/
def VM.executeIndexExpression (vm : VM) (left index : Object.Obj) : Outcome VM :=
  match left.TypeTag, index.TypeTag with
  | some leftType, some indexType =>
    if leftType = Object.ARRAY_OBJ ∧ indexType = Object.INTEGER_OBJ then
      vm.executeArrayIndex left index
    else if leftType = Object.HASH_OBJ then
      vm.executeHashIndex left index
    else
      .err ("index operator not supported: " ++ leftType)
  | _, _ => .panic "nil pointer dereference"

/-- `callFunction`: arity check, new frame at `basePointer = sp - numArgs`,
reserve the locals hole. -/
def VM.callFunction (vm : VM) (fn : Object.CompiledFunction) (numArgs : Nat) : Outcome VM :=
  if numArgs ≠ fn.NumParameters then
    .err ("wrong number of arguments: want=" ++ toString fn.NumParameters ++
          ", got=" ++ toString numArgs)
  else do
    let basePointer := vm.sp - numArgs
    let frame := NewFrame fn basePointer
    let vm ← vm.pushFrame frame
    .ok { vm with sp := basePointer + fn.NumLocals }

/-- `callBuiltin`: slice the arguments, run the built-in, replace the
function slot with the result (the Go code discards `push`'s error
return). -/
def VM.callBuiltin (vm : VM) (name : String) (numArgs : Nat) : Outcome VM :=
  let args := (List.range numArgs).map fun k => vm.stack (vm.sp - numArgs + k)
  let result := Object.builtinFn name args
  let vm := { vm with sp := vm.sp - numArgs - 1 }
  let pushed := match result with
                | some r => vm.push r
                | none => vm.push .Null
  match pushed with
  | .ok vm' => .ok vm'
  | .err _ => .ok vm
  | .panic m => .panic m

/-- `executeCall`: look at the callee below the arguments and dispatch.
Only `CompiledFunction` and `Builtin` are callable in this VM snapshot;
everything else — including a `Closure` — is "calling non-function and
non-built-in". -/
def VM.executeCall (vm : VM) (numArgs : Nat) : Outcome VM :=
  if vm.sp < 1 + numArgs then
    .panic "index out of range"
  else
    match vm.stack (vm.sp - 1 - numArgs) with
    | .CompiledFunction fn => vm.callFunction fn numArgs
    | .Builtin name => vm.callBuiltin name numArgs
    | _ => .err "calling non-function and non-built-in"

/-- One dispatch of the fetch-decode-execute switch on the opcode byte at
position `ip` (which the loop has just incremented to).  Opcodes without a
case — notably `OpClosure`, `OpGetFree` and `OpCurrentClosure` in this
snapshot — fall through the switch and leave the state unchanged. -/
def execOp (vm : VM) (ins : List Nat) (ip : Nat) (op : Nat) : Outcome VM :=
  let bump : VM → Int → VM := fun vm d => vm.withCurrentFrame fun fr => { fr with ip := fr.ip + d }
  let setIp : VM → Int → VM := fun vm p => vm.withCurrentFrame fun fr => { fr with ip := p }
  if op = Code.OpConstant then do
    let constIndex ← readUint16At ins (ip + 1)
    let vm := bump vm 2
    let c ← vm.constantsGet constIndex
    vm.push c
  else if op = Code.OpAdd ∨ op = Code.OpSub ∨ op = Code.OpMul ∨ op = Code.OpDiv then
    vm.executeBinaryOperation op
  else if op = Code.OpGreaterThan ∨ op = Code.OpEqual ∨ op = Code.OpNotEqual then
    vm.executeComparison op
  else if op = Code.OpMinus then
    vm.executeMinusOperator
  else if op = Code.OpBang then
    vm.executeBangOperator
  else if op = Code.OpTrue then
    vm.push (.Boolean true)
  else if op = Code.OpFalse then
    vm.push (.Boolean false)
  else if op = Code.OpJump then do
    let pos ← readUint16At ins (ip + 1)
    .ok (setIp vm ((pos : Int) - 1))
  else if op = Code.OpJumpNotTruthy then do
    let pos ← readUint16At ins (ip + 1)
    let vm := bump vm 2
    let (condition, vm) ← vm.pop
    if !isTruthy condition then
      .ok (setIp vm ((pos : Int) - 1))
    else
      .ok vm
  else if op = Code.OpSetGlobal then do
    let globalIndex ← readUint16At ins (ip + 1)
    let vm := bump vm 2
    let (v, vm) ← vm.pop
    vm.globalsWrite globalIndex v
  else if op = Code.OpGetGlobal then do
    let globalIndex ← readUint16At ins (ip + 1)
    let vm := bump vm 2
    vm.push (vm.globals globalIndex)
  else if op = Code.OpSetLocal then do
    let localIndex ← readByteAt ins (ip + 1)
    let vm := bump vm 1
    match vm.frames with
    | [] => .panic "index out of range"
    | frame :: _ => do
      let (v, vm) ← vm.pop
      vm.stackWrite (frame.basePointer + localIndex) v
  else if op = Code.OpGetLocal then do
    let localIndex ← readByteAt ins (ip + 1)
    let vm := bump vm 1
    match vm.frames with
    | [] => .panic "index out of range"
    | frame :: _ => vm.push (vm.stack (frame.basePointer + localIndex))
  else if op = Code.OpGetBuiltin then do
    let builtinIndex ← readByteAt ins (ip + 1)
    let vm := bump vm 1
    match Object.Builtins.get? builtinIndex with
    | none => .panic "index out of range"
    | some name => vm.push (.Builtin name)
  else if op = Code.OpArray then do
    let numElements ← readUint16At ins (ip + 1)
    let vm := bump vm 2
    if vm.sp < numElements then
      .panic "index out of range"
    else
      let array := vm.buildArray (vm.sp - numElements) vm.sp
      let vm := { vm with sp := vm.sp - numElements }
      vm.push array
  else if op = Code.OpHash then do
    let numElements ← readUint16At ins (ip + 1)
    let vm := bump vm 2
    if vm.sp < numElements then
      .panic "index out of range"
    else do
      let hash ← vm.buildHash (vm.sp - numElements) vm.sp
      let vm := { vm with sp := vm.sp - numElements }
      vm.push hash
  else if op = Code.OpIndex then do
    let (index, vm) ← vm.pop
    let (left, vm) ← vm.pop
    vm.executeIndexExpression left index
  else if op = Code.OpCall then do
    let numArgs ← readByteAt ins (ip + 1)
    let vm := bump vm 1
    vm.executeCall numArgs
  else if op = Code.OpReturnValue then do
    let (returnValue, vm) ← vm.pop
    let (frame, vm) ← vm.popFrame
    if frame.basePointer = 0 then
      -- sp would become -1 and the push below would write stack[-1]
      .panic "index out of range"
    else
      let vm := { vm with sp := frame.basePointer - 1 }
      vm.push returnValue
  else if op = Code.OpReturn then do
    let (frame, vm) ← vm.popFrame
    if frame.basePointer = 0 then
      .panic "index out of range"
    else
      let vm := { vm with sp := frame.basePointer - 1 }
      vm.push .Null
  else if op = Code.OpNull then
    vm.push .Null
  else if op = Code.OpPop then do
    let (_, vm) ← vm.pop
    .ok vm
  else
    .ok vm

/-- The result of `Run`: normal completion, a returned error, a Go panic,
or exhausted model fuel (carrying the state reached, so that runs can be
chained). -/
inductive RunResult where
  | ok (vm : VM)
  | err (msg : String)
  | panic (msg : String)
  | timeout (vm : VM)

/-- The outcome of one iteration of `Run`'s loop: dispatch one instruction
and continue, or leave the loop. -/
inductive IterResult where
  | step (vm : VM)
  | ok (vm : VM)
  | err (msg : String)
  | panic (msg : String)

/-- One iteration of `Run`'s while loop: if `ip < len(instructions) - 1`
in the current frame, increment `ip`, fetch the byte there and dispatch;
otherwise leave the loop returning nil. -/
def runIter (vm : VM) : IterResult :=
  match vm.frames with
  | [] => .panic "index out of range"
  | fr :: restFrames =>
    if fr.ip < (fr.Instructions.length : Int) - 1 then
      let ip := fr.ip + 1
      let fr' := { fr with ip := ip }
      let vm := { vm with frames := fr' :: restFrames }
      let ins := fr'.Instructions
      match ins.get? ip.toNat with
      | none => .panic "index out of range"
      | some op =>
        match execOp vm ins ip.toNat op with
        | .ok vm' => .step vm'
        | .err msg => .err msg
        | .panic msg => .panic msg
    else
      .ok vm

/-- `(*VM).Run`: iterate the loop body. -/
def Run : Nat → VM → RunResult
  | 0, vm => .timeout vm
  | fuel + 1, vm =>
    match runIter vm with
    | .step vm' => Run fuel vm'
    | .ok vm' => .ok vm'
    | .err msg => .err msg
    | .panic msg => .panic msg

end Vm

/-! ## Package `lexer` (lexer.go)

Go strings are byte slices; the analysed inputs are ASCII, so bytes are
modelled as `Char` (byte value = code point) with the NUL byte `\x00` as
the end-of-input sentinel exactly as in the source.  The character-reading
loops advance `readPosition` by one per step and stop no later than one
step past the end of the input, so each is run with fuel
`input.length + 1 - readPosition`, which always suffices. -/

namespace Lexer

/-- The NUL sentinel (`0` in the Go source). -/
def NUL : Char := Char.ofNat 0

/-- `lexer.Lexer`. -/
structure Lexer where
  input : List Char
  position : Nat
  readPosition : Nat
  ch : Char

/-- `readChar`. -/
def readChar (l : Lexer) : Lexer :=
  { l with ch := if l.input.length ≤ l.readPosition then NUL
                 else l.input.getD l.readPosition NUL
           position := l.readPosition
           readPosition := l.readPosition + 1 }

/-- `New`. -/
def New (input : List Char) : Lexer :=
  readChar { input := input, position := 0, readPosition := 0, ch := NUL }

/-- `peekChar`. -/
def peekChar (l : Lexer) : Char :=
  if l.input.length ≤ l.readPosition then NUL else l.input.getD l.readPosition NUL

/-- `isLetter`. -/
def isLetter (ch : Char) : Bool :=
  ('a' ≤ ch ∧ ch ≤ 'z') ∨ ('A' ≤ ch ∧ ch ≤ 'Z') ∨ ch = '_'

/-- `isDigit`. -/
def isDigit (ch : Char) : Bool :=
  '0' ≤ ch ∧ ch ≤ '9'

/-- Whitespace test of `skipWhitespace`. -/
def isWhitespaceCh (ch : Char) : Bool :=
  ch = ' ' ∨ ch = '\t' ∨ ch = '\n' ∨ ch = '\r'

def skipWhitespaceGo : Nat → Lexer → Lexer
  | 0, l => l
  | fuel + 1, l => if isWhitespaceCh l.ch then skipWhitespaceGo fuel (readChar l) else l

/-- `skipWhitespace`. -/
def skipWhitespace (l : Lexer) : Lexer :=
  skipWhitespaceGo (l.input.length + 1 - l.readPosition) l

/-- The slice `input[a:b]` as a string. -/
def slice (input : List Char) (a b : Nat) : String :=
  String.mk ((input.drop a).take (b - a))

def readNumberGo : Nat → Lexer → Lexer
  | 0, l => l
  | fuel + 1, l => if isDigit l.ch then readNumberGo fuel (readChar l) else l

/-- `readNumber`. -/
def readNumber (l : Lexer) : String × Lexer :=
  let position := l.position
  let l' := readNumberGo (l.input.length + 1 - l.readPosition) l
  (slice l'.input position l'.position, l')

def readIdentifierGo : Nat → Lexer → Lexer
  | 0, l => l
  | fuel + 1, l => if isLetter l.ch then readIdentifierGo fuel (readChar l) else l

/-- `readIdentifier`. -/
def readIdentifier (l : Lexer) : String × Lexer :=
  let position := l.position
  let l' := readIdentifierGo (l.input.length + 1 - l.readPosition) l
  (slice l'.input position l'.position, l')

def readStringGo : Nat → Lexer → Lexer
  | 0, l => l
  | fuel + 1, l =>
    let l := readChar l
    if l.ch = '"' ∨ l.ch = NUL then l else readStringGo fuel l

/-- `readString`: advance past the opening quote until a closing quote or
the NUL sentinel, and return the bytes in between (no escape
processing). -/
def readString (l : Lexer) : String × Lexer :=
  let position := l.position + 1
  let l' := readStringGo (l.input.length + 1 - l.readPosition) l
  (slice l'.input position l'.position, l')

/-- `newToken`. -/
def newToken (tokenType : TokenType) (ch : Char) : Token :=
  ⟨tokenType, String.mk [ch]⟩

/-- `NextToken`. -/
def NextToken (l : Lexer) : Token × Lexer :=
  let l := skipWhitespace l
  if l.ch = '=' then
    if peekChar l = '=' then
      let ch := l.ch
      let l := readChar l
      (⟨.EQ, String.mk [ch, l.ch]⟩, readChar l)
    else (newToken .ASSIGN l.ch, readChar l)
  else if l.ch = '+' then (newToken .PLUS l.ch, readChar l)
  else if l.ch = '-' then (newToken .MINUS l.ch, readChar l)
  else if l.ch = '!' then
    if peekChar l = '=' then
      let ch := l.ch
      let l := readChar l
      (⟨.NOT_EQ, String.mk [ch, l.ch]⟩, readChar l)
    else (newToken .BANG l.ch, readChar l)
  else if l.ch = '*' then (newToken .ASTERISK l.ch, readChar l)
  else if l.ch = '/' then (newToken .SLASH l.ch, readChar l)
  else if l.ch = '<' then (newToken .LT l.ch, readChar l)
  else if l.ch = '>' then (newToken .GT l.ch, readChar l)
  else if l.ch = ',' then (newToken .COMMA l.ch, readChar l)
  else if l.ch = ';' then (newToken .SEMICOLON l.ch, readChar l)
  else if l.ch = '(' then (newToken .LPAREN l.ch, readChar l)
  else if l.ch = ')' then (newToken .RPAREN l.ch, readChar l)
  else if l.ch = Char.ofNat 0x7b then (newToken .LBRACE l.ch, readChar l)
  else if l.ch = Char.ofNat 0x7d then (newToken .RBRACE l.ch, readChar l)
  -- note: this lexer snapshot has no cases for ':', '[' or ']' — those
  -- bytes fall through to the ILLEGAL default
  else if l.ch = '"' then
    let (lit, l) := readString l
    (⟨.STRING, lit⟩, readChar l)
  else if l.ch = NUL then
    (⟨.EOF, ""⟩, readChar l)
  else if isLetter l.ch then
    -- identifiers return early, without the trailing readChar
    let (lit, l) := readIdentifier l
    (⟨LookupIdent lit, lit⟩, l)
  else if isDigit l.ch then
    let (lit, l) := readNumber l
    (⟨.INT, lit⟩, l)
  else
    (newToken .ILLEGAL l.ch, readChar l)

end Lexer

/-! ## Package `parser` (parser.go, full Pratt parser version)

Every parsing function threads the parser state explicitly and takes a
fuel argument that is decremented on entry (the Go recursion terminates on
finite inputs; the concrete theorems supply ample fuel).  A handler that
abandons its construct returns `none` for the sub-tree, exactly as the Go
code returns nil.  `parseStatement` always returns a non-nil
`ast.Statement` interface value: when `parseLetStatement` fails it returns
a nil `*ast.LetStatement`, which the interface wrap turns into the non-nil
`Statement.LetStatementNil`, so `ParseProgram`'s `stmt != nil` test never
filters anything out. -/

namespace Parser

def LOWEST : Nat := 1
def EQUALS : Nat := 2
def LESSGREATER : Nat := 3
def SUM : Nat := 4
def PRODUCT : Nat := 5
def PREFIX : Nat := 6
def CALL : Nat := 7
def INDEX : Nat := 8

/-- The `precedences` map. -/
def precedences (t : TokenType) : Option Nat :=
  match t with
  | .EQ => some EQUALS
  | .NOT_EQ => some EQUALS
  | .LT => some LESSGREATER
  | .GT => some LESSGREATER
  | .PLUS => some SUM
  | .MINUS => some SUM
  | .SLASH => some PRODUCT
  | .ASTERISK => some PRODUCT
  | .LPAREN => some CALL
  | .LBRACKET => some INDEX
  | _ => none

/-- `parser.Parser`: lexer, current/peek tokens and accumulated
diagnostics. -/
structure Parser where
  l : Lexer.Lexer
  curToken : Token
  peekToken : Token
  errors : List String

/-- `nextToken`. -/
def nextToken (p : Parser) : Parser :=
  let (tok, l') := Lexer.NextToken p.l
  { p with l := l', curToken := p.peekToken, peekToken := tok }

/-- `parser.New`: read two tokens so that both `curToken` and `peekToken`
are set (the zero-valued placeholders are never observed). -/
def New (l : Lexer.Lexer) : Parser :=
  nextToken (nextToken ⟨l, ⟨.ILLEGAL, ""⟩, ⟨.ILLEGAL, ""⟩, []⟩)

def curTokenIs (p : Parser) (t : TokenType) : Bool := p.curToken.type = t

def peekTokenIs (p : Parser) (t : TokenType) : Bool := p.peekToken.type = t

/-- `peekError`: the diagnostic appended on a failed expectation. -/
def peekError (p : Parser) (t : TokenType) : Parser :=
  { p with errors := p.errors ++
      ["expected next token to be " ++ t.goString ++ ", got " ++
       p.peekToken.type.goString ++ " instead"] }

/-- `expectPeek`: advance on a match, record a diagnostic otherwise. -/
def expectPeek (p : Parser) (t : TokenType) : Bool × Parser :=
  if peekTokenIs p t then (true, nextToken p) else (false, peekError p t)

/-- `noPrefixParseFnError`. -/
def noPrefixParseFnError (p : Parser) (t : TokenType) : Parser :=
  { p with errors := p.errors ++
      ["no prefix parse function for " ++ t.goString ++ " found"] }

def peekPrecedence (p : Parser) : Nat := (precedences p.peekToken.type).getD LOWEST

def curPrecedence (p : Parser) : Nat := (precedences p.curToken.type).getD LOWEST

/-- The token types with a registered prefix parse function. -/
def hasPrefixFn (t : TokenType) : Bool :=
  match t with
  | .IDENT | .INT | .BANG | .MINUS | .TRUE | .FALSE | .LPAREN | .IF
  | .FUNCTION | .STRING | .LBRACKET | .LBRACE => true
  | _ => false

/-- The token types with a registered infix parse function. -/
def hasInfixFn (t : TokenType) : Bool :=
  match t with
  | .PLUS | .MINUS | .SLASH | .ASTERISK | .EQ | .NOT_EQ | .LT | .GT
  | .LPAREN | .LBRACKET => true
  | _ => false

/-- `strconv.ParseInt(s, 0, 64)` on the digit-only literals the lexer
produces: base 0 reads a leading `0` as octal (a digit 8 or 9 is then a
syntax error), anything else as decimal; a value outside int64 is a range
error.  `none` models a non-nil error. -/
def goParseIntBase0 (s : String) : Option Int :=
  match s.data with
  | [] => none
  | ['0'] => some 0
  | '0' :: rest =>
    (rest.foldlM (fun acc c =>
      if '0' ≤ c ∧ c ≤ '7' then some (acc * 8 + (c.toNat - '0'.toNat)) else none) 0).bind
      fun v => if v < 2 ^ 63 then some (v : Int) else none
  | ds =>
    (ds.foldlM (fun acc c =>
      if Lexer.isDigit c then some (acc * 10 + (c.toNat - '0'.toNat)) else none) 0).bind
      fun v => if v < 2 ^ 63 then some (v : Int) else none

/-- `parseIntegerLiteral`. -/
def parseIntegerLiteral (p : Parser) : Option Ast.Expression × Parser :=
  match goParseIntBase0 p.curToken.Literal with
  | none =>
    (none, { p with errors := p.errors ++
      ["could not parse \"" ++ p.curToken.Literal ++ "\" a integer"] })
  | some v => (some (.IntegerLiteral p.curToken v), p)

mutual

/-- The statement loop of `ParseProgram`: every parsed statement is
appended (the `stmt != nil` test is always true, see above). -/
def parseProgramGo : Nat → List Ast.Statement → Parser → Ast.Program × Parser
  | 0, acc, p => (⟨acc⟩, p)
  | fuel + 1, acc, p =>
    if curTokenIs p .EOF then (⟨acc⟩, p)
    else
      let (stmt, p) := parseStatement fuel p
      parseProgramGo fuel (acc ++ [stmt]) (nextToken p)

/-- `parseStatement`. -/
def parseStatement : Nat → Parser → Ast.Statement × Parser
  | 0, p => (.LetStatementNil, p)
  | fuel + 1, p =>
    match p.curToken.type with
    | .LET =>
      (match parseLetStatement fuel p with
       | (some s, p) => (s, p)
       | (none, p) => (.LetStatementNil, p))
    | .RETURN => parseReturnStatement fuel p
    | _ => parseExpressionStatement fuel p

/-- `parseLetStatement` (`none` is the nil `*ast.LetStatement`). -/
def parseLetStatement : Nat → Parser → Option Ast.Statement × Parser
  | 0, p => (none, p)
  | fuel + 1, p =>
    let stmtToken := p.curToken
    match expectPeek p .IDENT with
    | (false, p) => (none, p)
    | (true, p) =>
      let name : Ast.Identifier := ⟨p.curToken, p.curToken.Literal⟩
      match expectPeek p .ASSIGN with
      | (false, p) => (none, p)
      | (true, p) =>
        let p := nextToken p
        let (value, p) := parseExpression fuel LOWEST p
        -- a function-literal value gets the let-binding's name
        let value :=
          match value with
          | some (.FunctionLiteral t ps b _) => some (.FunctionLiteral t ps b name.Value)
          | v => v
        let p := if peekTokenIs p .SEMICOLON then nextToken p else p
        (some (.LetStatement stmtToken name value), p)

/-- `parseReturnStatement` (never nil). -/
def parseReturnStatement : Nat → Parser → Ast.Statement × Parser
  | 0, p => (.LetStatementNil, p)
  | fuel + 1, p =>
    let tok := p.curToken
    let p := nextToken p
    let (value, p) := parseExpression fuel LOWEST p
    let p := if peekTokenIs p .SEMICOLON then nextToken p else p
    (.ReturnStatement tok value, p)

/-- `parseExpressionStatement` (never nil; its expression may be). -/
def parseExpressionStatement : Nat → Parser → Ast.Statement × Parser
  | 0, p => (.LetStatementNil, p)
  | fuel + 1, p =>
    let tok := p.curToken
    let (e, p) := parseExpression fuel LOWEST p
    let p := if peekTokenIs p .SEMICOLON then nextToken p else p
    (.ExpressionStatement tok e, p)

/-- `parseExpression`: prefix handler, then the infix loop. -/
def parseExpression : Nat → Nat → Parser → Option Ast.Expression × Parser
  | 0, _, p => (none, p)
  | fuel + 1, precedence, p =>
    if hasPrefixFn p.curToken.type then
      let (leftExp, p) := parsePrefixDispatch fuel p
      parseExpressionLoop fuel precedence leftExp p
    else
      (none, noPrefixParseFnError p p.curToken.type)

/-- Dispatch to the registered prefix handler of the current token. -/
def parsePrefixDispatch : Nat → Parser → Option Ast.Expression × Parser
  | 0, p => (none, p)
  | fuel + 1, p =>
    match p.curToken.type with
    | .IDENT => (some (.Identifier p.curToken p.curToken.Literal), p)
    | .INT => parseIntegerLiteral p
    | .STRING => (some (.StringLiteral p.curToken p.curToken.Literal), p)
    | .TRUE => (some (.Boolean p.curToken (curTokenIs p .TRUE)), p)
    | .FALSE => (some (.Boolean p.curToken (curTokenIs p .TRUE)), p)
    | .BANG => parsePrefixExpression fuel p
    | .MINUS => parsePrefixExpression fuel p
    | .LPAREN => parseGroupedExpression fuel p
    | .IF => parseIfExpression fuel p
    | .FUNCTION => parseFunctionLiteral fuel p
    | .LBRACKET => parseArrayLiteral fuel p
    | .LBRACE => parseHashLiteral fuel p
    | _ => (none, p)

/-- The `for` loop of `parseExpression`: keep folding infix handlers while
the next token binds tighter. -/
def parseExpressionLoop : Nat → Nat → Option Ast.Expression → Parser →
    Option Ast.Expression × Parser
  | 0, _, leftExp, p => (leftExp, p)
  | fuel + 1, precedence, leftExp, p =>
    if ¬peekTokenIs p .SEMICOLON ∧ precedence < peekPrecedence p then
      if hasInfixFn p.peekToken.type then
        let p := nextToken p
        let (leftExp, p) := parseInfixDispatch fuel leftExp p
        parseExpressionLoop fuel precedence leftExp p
      else (leftExp, p)
    else (leftExp, p)

/-- Dispatch to the registered infix handler of the (already advanced-to)
operator token. -/
def parseInfixDispatch : Nat → Option Ast.Expression → Parser →
    Option Ast.Expression × Parser
  | 0, left, p => (left, p)
  | fuel + 1, left, p =>
    match p.curToken.type with
    | .LPAREN => parseCallExpression fuel left p
    | .LBRACKET => parseIndexExpression fuel left p
    | _ => parseInfixExpression fuel left p

/-- `parsePrefixExpression`. -/
def parsePrefixExpression : Nat → Parser → Option Ast.Expression × Parser
  | 0, p => (none, p)
  | fuel + 1, p =>
    let tok := p.curToken
    let op := p.curToken.Literal
    let p := nextToken p
    let (right, p) := parseExpression fuel PREFIX p
    (some (.PrefixExpression tok op right), p)

/-- `parseInfixExpression`. -/
def parseInfixExpression : Nat → Option Ast.Expression → Parser →
    Option Ast.Expression × Parser
  | 0, left, p => (left, p)
  | fuel + 1, left, p =>
    let tok := p.curToken
    let op := p.curToken.Literal
    let precedence := curPrecedence p
    let p := nextToken p
    let (right, p) := parseExpression fuel precedence p
    (some (.InfixExpression tok left op right), p)

/-- `parseGroupedExpression`. -/
def parseGroupedExpression : Nat → Parser → Option Ast.Expression × Parser
  | 0, p => (none, p)
  | fuel + 1, p =>
    let p := nextToken p
    let (exp, p) := parseExpression fuel LOWEST p
    match expectPeek p .RPAREN with
    | (false, p) => (none, p)
    | (true, p) => (exp, p)

/-- `parseIfExpression`. -/
def parseIfExpression : Nat → Parser → Option Ast.Expression × Parser
  | 0, p => (none, p)
  | fuel + 1, p =>
    let tok := p.curToken
    match expectPeek p .LPAREN with
    | (false, p) => (none, p)
    | (true, p) =>
      let p := nextToken p
      let (cond, p) := parseExpression fuel LOWEST p
      match expectPeek p .RPAREN with
      | (false, p) => (none, p)
      | (true, p) =>
        match expectPeek p .LBRACE with
        | (false, p) => (none, p)
        | (true, p) =>
          let (cons, p) := parseBlockStatement fuel p
          if peekTokenIs p .ELSE then
            let p := nextToken p
            match expectPeek p .LBRACE with
            | (false, p) => (none, p)
            | (true, p) =>
              let (alt, p) := parseBlockStatement fuel p
              (some (.IfExpression tok cond (some cons) (some alt)), p)
          else
            (some (.IfExpression tok cond (some cons) none), p)

/-- `parseBlockStatement` (never nil). -/
def parseBlockStatement : Nat → Parser → Ast.BlockStatement × Parser
  | 0, p => (.mk p.curToken [], p)
  | fuel + 1, p =>
    let tok := p.curToken
    let p := nextToken p
    parseBlockGo fuel tok [] p

/-- The statement loop of `parseBlockStatement`. -/
def parseBlockGo : Nat → Token → List Ast.Statement → Parser →
    Ast.BlockStatement × Parser
  | 0, tok, acc, p => (.mk tok acc, p)
  | fuel + 1, tok, acc, p =>
    if ¬curTokenIs p (.RBRACE) ∧ ¬curTokenIs p .EOF then
      let (stmt, p) := parseStatement fuel p
      parseBlockGo fuel tok (acc ++ [stmt]) (nextToken p)
    else (.mk tok acc, p)

/-- `parseFunctionLiteral` (`bound_name` is filled in later by
`parseLetStatement`; a nil parameter slice behaves as an empty one in
every later use). -/
def parseFunctionLiteral : Nat → Parser → Option Ast.Expression × Parser
  | 0, p => (none, p)
  | fuel + 1, p =>
    let tok := p.curToken
    match expectPeek p .LPAREN with
    | (false, p) => (none, p)
    | (true, p) =>
      let (params, p) := parseFunctionParameters fuel p
      match expectPeek p .LBRACE with
      | (false, p) => (none, p)
      | (true, p) =>
        let (body, p) := parseBlockStatement fuel p
        (some (.FunctionLiteral tok (params.getD []) (some body) ""), p)

/-- `parseFunctionParameters` (`none` is the nil slice returned on a
failed closing-parenthesis expectation). -/
def parseFunctionParameters : Nat → Parser → Option (List Ast.Identifier) × Parser
  | 0, p => (none, p)
  | fuel + 1, p =>
    if peekTokenIs p .RPAREN then (some [], nextToken p)
    else
      let p := nextToken p
      let ident : Ast.Identifier := ⟨p.curToken, p.curToken.Literal⟩
      parseFunctionParametersGo fuel [ident] p

/-- The comma loop of `parseFunctionParameters`. -/
def parseFunctionParametersGo : Nat → List Ast.Identifier → Parser →
    Option (List Ast.Identifier) × Parser
  | 0, _, p => (none, p)
  | fuel + 1, acc, p =>
    if peekTokenIs p .COMMA then
      let p := nextToken p
      let p := nextToken p
      let ident : Ast.Identifier := ⟨p.curToken, p.curToken.Literal⟩
      parseFunctionParametersGo fuel (acc ++ [ident]) p
    else
      match expectPeek p .RPAREN with
      | (false, p) => (none, p)
      | (true, p) => (some acc, p)

/-- `parseCallExpression` (a nil argument slice behaves as an empty
one). -/
def parseCallExpression : Nat → Option Ast.Expression → Parser →
    Option Ast.Expression × Parser
  | 0, _, p => (none, p)
  | fuel + 1, function, p =>
    let tok := p.curToken
    let (args, p) := parseExpressionList fuel .RPAREN p
    (some (.CallExpression tok function (args.getD [])), p)

/-- `parseExpressionList` (`none` is the nil slice returned on a failed
closing expectation). -/
def parseExpressionList : Nat → TokenType → Parser →
    Option (List (Option Ast.Expression)) × Parser
  | 0, _, p => (none, p)
  | fuel + 1, endTok, p =>
    if peekTokenIs p endTok then (some [], nextToken p)
    else
      let p := nextToken p
      let (e, p) := parseExpression fuel LOWEST p
      parseExpressionListGo fuel endTok [e] p

/-- The comma loop of `parseExpressionList`. -/
def parseExpressionListGo : Nat → TokenType → List (Option Ast.Expression) → Parser →
    Option (List (Option Ast.Expression)) × Parser
  | 0, _, _, p => (none, p)
  | fuel + 1, endTok, acc, p =>
    if peekTokenIs p .COMMA then
      let p := nextToken p
      let p := nextToken p
      let (e, p) := parseExpression fuel LOWEST p
      parseExpressionListGo fuel endTok (acc ++ [e]) p
    else
      match expectPeek p endTok with
      | (false, p) => (none, p)
      | (true, p) => (some acc, p)

/-- `parseArrayLiteral`. -/
def parseArrayLiteral : Nat → Parser → Option Ast.Expression × Parser
  | 0, p => (none, p)
  | fuel + 1, p =>
    let tok := p.curToken
    let (elems, p) := parseExpressionList fuel .RBRACKET p
    (some (.ArrayLiteral tok (elems.getD [])), p)

/-- `parseIndexExpression`. -/
def parseIndexExpression : Nat → Option Ast.Expression → Parser →
    Option Ast.Expression × Parser
  | 0, _, p => (none, p)
  | fuel + 1, left, p =>
    let tok := p.curToken
    let p := nextToken p
    let (index, p) := parseExpression fuel LOWEST p
    match expectPeek p .RBRACKET with
    | (false, p) => (none, p)
    | (true, p) => (some (.IndexExpression tok left index), p)

/-- `parseHashLiteral` (pairs in insertion order; Go's map iteration later
randomises them). -/
def parseHashLiteral : Nat → Parser → Option Ast.Expression × Parser
  | 0, p => (none, p)
  | fuel + 1, p =>
    let tok := p.curToken
    parseHashGo fuel tok [] p

/-- The pair loop of `parseHashLiteral`. -/
def parseHashGo : Nat → Token → List (Option Ast.Expression × Option Ast.Expression) →
    Parser → Option Ast.Expression × Parser
  | 0, _, _, p => (none, p)
  | fuel + 1, tok, acc, p =>
    if ¬peekTokenIs p (.RBRACE) then
      let p := nextToken p
      let (key, p) := parseExpression fuel LOWEST p
      match expectPeek p .COLON with
      | (false, p) => (none, p)
      | (true, p) =>
        let p := nextToken p
        let (value, p) := parseExpression fuel LOWEST p
        let acc := acc ++ [(key, value)]
        if ¬peekTokenIs p (.RBRACE) then
          match expectPeek p .COMMA with
          | (false, p) => (none, p)
          | (true, p) => parseHashGo fuel tok acc p
        else
          parseHashGo fuel tok acc p
    else
      match expectPeek p (.RBRACE) with
      | (false, p) => (none, p)
      | (true, p) => (some (.HashLiteral tok acc), p)

end

/-- `ParseProgram`: consume statements until EOF, then return the program
(diagnostics stay in the parser). -/
def ParseProgram (fuel : Nat) (p : Parser) : Ast.Program × Parser :=
  parseProgramGo fuel [] p

end Parser

/-! ## Concrete programs and states used by the verification -/

/-- The spec-side mapping from a non-rewritten infix operator to the opcode
its table prescribes (used to state the ordering claim about the
compiler). -/
def specInfixOpcode (op : String) : Code.Opcode :=
  if op = "+" then Code.OpAdd
  else if op = "-" then Code.OpSub
  else if op = "*" then Code.OpMul
  else if op = "/" then Code.OpDiv
  else if op = ">" then Code.OpGreaterThan
  else if op = "==" then Code.OpEqual
  else Code.OpNotEqual

def tokLET : Token := ⟨.LET, "let"⟩
def tokFN : Token := ⟨.FUNCTION, "fn"⟩
def tokLP : Token := ⟨.LPAREN, "("⟩
def tokLB : Token := ⟨.LBRACE, "\x7b"⟩
def tokPLUS : Token := ⟨.PLUS, "+"⟩

def identE (s : String) : Ast.Expression := .Identifier ⟨.IDENT, s⟩ s

def intE (n : Int) : Ast.Expression := .IntegerLiteral ⟨.INT, toString n⟩ n

/-- The inner function `fn(b) { a + b }`. -/
def fnInner : Ast.Expression :=
  .FunctionLiteral tokFN [⟨⟨.IDENT, "b"⟩, "b"⟩]
    (some (.mk tokLB [.ExpressionStatement ⟨.IDENT, "a"⟩
      (some (.InfixExpression tokPLUS (some (identE "a")) "+" (some (identE "b"))))])) ""

/-- The outer function `fn(a) { fn(b) { a + b } }`, bound to `newAdder`. -/
def fnOuter : Ast.Expression :=
  .FunctionLiteral tokFN [⟨⟨.IDENT, "a"⟩, "a"⟩]
    (some (.mk tokLB [.ExpressionStatement tokFN (some fnInner)])) "newAdder"

/-- `let newAdder = fn(a) { fn(b) { a + b } };`. -/
def newAdderSt1 : Ast.Statement :=
  .LetStatement tokLET ⟨⟨.IDENT, "newAdder"⟩, "newAdder"⟩ (some fnOuter)

/-- `let addTwo = newAdder(2);`. -/
def newAdderSt2 : Ast.Statement :=
  .LetStatement tokLET ⟨⟨.IDENT, "addTwo"⟩, "addTwo"⟩
    (some (.CallExpression tokLP (some (identE "newAdder")) [some (intE 2)]))

/-- `addTwo(3);`. -/
def newAdderSt3 : Ast.Statement :=
  .ExpressionStatement ⟨.IDENT, "addTwo"⟩
    (some (.CallExpression tokLP (some (identE "addTwo")) [some (intE 3)]))

/-- The AST of
`let newAdder = fn(a) { fn(b) { a + b } }; let addTwo = newAdder(2); addTwo(3)`. -/
def newAdderProgram : Ast.Program := ⟨[newAdderSt1, newAdderSt2, newAdderSt3]⟩

/-- The compiled inner function `fn(b) { a + b }`: GetFree 0; GetLocal 0;
Add; ReturnValue — one local (the parameter b), one parameter. -/
def innerCF : Object.CompiledFunction := ⟨[28, 0, 25, 0, 1, 22], 1, 1⟩

/-- The compiled outer function `fn(a) { fn(b) { a + b } }`: GetLocal 0;
Closure 0 1; ReturnValue. -/
def outerCF : Object.CompiledFunction := ⟨[25, 0, 27, 0, 0, 1, 22], 1, 1⟩

/-- The bytecode the compiler produces for `newAdderProgram`: the main
instructions start with `OpClosure 1 0` (bytes 27, 0, 1, 0), which this
VM snapshot cannot execute. -/
def newAdderBytecode : Compiler.Bytecode :=
  ⟨[27, 0, 1, 0, 17, 0, 0, 16, 0, 0, 0, 0, 2, 21, 1, 17, 0, 1, 16, 0, 1, 0, 0, 3, 21, 1, 2],
   [.CompiledFunction innerCF, .CompiledFunction outerCF, .Integer 2, .Integer 3]⟩

/-- The symbol store installed by `compiler.New` (newest binding first,
one entry per registered built-in). -/
def builtinStore : List (String × Compiler.Symbol) :=
  [("puts", ⟨"puts", Compiler.BuiltinScope, 5⟩),
   ("push", ⟨"push", Compiler.BuiltinScope, 4⟩),
   ("rest", ⟨"rest", Compiler.BuiltinScope, 3⟩),
   ("last", ⟨"last", Compiler.BuiltinScope, 2⟩),
   ("first", ⟨"first", Compiler.BuiltinScope, 1⟩),
   ("len", ⟨"len", Compiler.BuiltinScope, 0⟩)]

/-- The compiler state after compiling `newAdderSt1` from `Compiler.New`
(spelled out so that the per-statement compilations can be checked one at
a time). -/
def cAfterS1 : Compiler.Compiler :=
  { constants := [.CompiledFunction innerCF, .CompiledFunction outerCF]
    symbolTable := .mk none
      (("newAdder", ⟨"newAdder", Compiler.GlobalScope, 0⟩) :: builtinStore) 1 []
    scopes := [⟨[27, 0, 1, 0, 17, 0, 0], ⟨17, 4⟩, ⟨27, 0⟩⟩]
    scopeIndex := 0 }

/-- The compiler state after compiling `newAdderSt2` from `cAfterS1`. -/
def cAfterS2 : Compiler.Compiler :=
  { constants := [.CompiledFunction innerCF, .CompiledFunction outerCF, .Integer 2]
    symbolTable := .mk none
      (("addTwo", ⟨"addTwo", Compiler.GlobalScope, 1⟩) ::
       ("newAdder", ⟨"newAdder", Compiler.GlobalScope, 0⟩) :: builtinStore) 2 []
    scopes := [⟨[27, 0, 1, 0, 17, 0, 0, 16, 0, 0, 0, 0, 2, 21, 1, 17, 0, 1],
               ⟨17, 15⟩, ⟨21, 13⟩⟩]
    scopeIndex := 0 }

/-- The compiler state after compiling `newAdderSt3` from `cAfterS2`; its
`bytecode` is `newAdderBytecode`. -/
def cAfterS3 : Compiler.Compiler :=
  { constants := [.CompiledFunction innerCF, .CompiledFunction outerCF,
                  .Integer 2, .Integer 3]
    symbolTable := .mk none
      (("addTwo", ⟨"addTwo", Compiler.GlobalScope, 1⟩) ::
       ("newAdder", ⟨"newAdder", Compiler.GlobalScope, 0⟩) :: builtinStore) 2 []
    scopes := [⟨[27, 0, 1, 0, 17, 0, 0, 16, 0, 0, 0, 0, 2, 21, 1, 17, 0, 1,
                 16, 0, 1, 0, 0, 3, 21, 1, 2], ⟨2, 26⟩, ⟨21, 24⟩⟩]
    scopeIndex := 0 }

/-- The AST of `let f = fn() { f() }; f()`. -/
def recProgram : Ast.Program :=
  ⟨[.LetStatement tokLET ⟨⟨.IDENT, "f"⟩, "f"⟩
      (some (.FunctionLiteral tokFN []
        (some (.mk tokLB [.ExpressionStatement ⟨.IDENT, "f"⟩
          (some (.CallExpression tokLP (some (identE "f")) []))])) "f")),
    .ExpressionStatement ⟨.IDENT, "f"⟩
      (some (.CallExpression tokLP (some (identE "f")) []))]⟩

/-- The compiled body of `fn() { f() }` (OpCurrentClosure; OpCall 0;
OpReturnValue). -/
def recBodyFn : Object.CompiledFunction := ⟨[29, 21, 0, 22], 0, 0⟩

/-- The bytecode of `let f = fn() { f() }; f()`. -/
def recBytecode : Compiler.Bytecode :=
  ⟨[27, 0, 0, 0, 17, 0, 0, 16, 0, 0, 21, 0, 2], [.CompiledFunction recBodyFn]⟩

/-- The main-frame function `vm.New` builds for `recBytecode`. -/
def recMainFn : Object.CompiledFunction := ⟨recBytecode.Instructions, 0, 0⟩

/-- The VM state of the `recBytecode` run after the main frame's `OpCall`
and `k - 1` further nested calls (so `framesIndex = k + 1`): because the
VM skips the unknown `OpClosure` byte, its `0x00` operand byte is
re-interpreted as `OpConstant` and pushes the bare `CompiledFunction`,
which then gets called over and over; every suspended frame sits at
`ip = 2` with base pointer 1 and the callee slot `stack[0]` still holds
the function. -/
def recState (k : Nat) : Vm.VM :=
  { constants := recBytecode.Constants
    stack := fun j => if j = 0 then .CompiledFunction recBodyFn else
      (fun j' => if j' = 0 then .CompiledFunction recBodyFn else
        (fun _ => Object.Obj.goNil) j') j
    sp := 1
    globals := fun j => if j = 0 then .CompiledFunction recBodyFn else
      (fun _ => Object.Obj.goNil) j
    frames := ⟨recBodyFn, -1, 1⟩ ::
      (List.replicate (k - 1) ⟨recBodyFn, 2, 1⟩ ++ [⟨recMainFn, 11, 0⟩])
    framesIndex := k + 1 }

/-- The pairs of the hash literal `{1: 2, 1: 3}` — two pointer-distinct
keys with the same stringification — in one map iteration order... -/
def hashOrder1Pairs : List (Option Ast.Expression × Option Ast.Expression) :=
  [(some (intE 1), some (intE 2)), (some (intE 1), some (intE 3))]

/-- ... and in the other iteration order. -/
def hashOrder2Pairs : List (Option Ast.Expression × Option Ast.Expression) :=
  [(some (intE 1), some (intE 3)), (some (intE 1), some (intE 2))]

/-- The hash literal `{1: 2, 1: 3}` as handed to the compiler after one
map iteration order... -/
def hashOrder1 : Ast.Program :=
  ⟨[.ExpressionStatement tokLB (some (.HashLiteral tokLB hashOrder1Pairs))]⟩

/-- ... and after the other iteration order. -/
def hashOrder2 : Ast.Program :=
  ⟨[.ExpressionStatement tokLB (some (.HashLiteral tokLB hashOrder2Pairs))]⟩

/-- Hash pairs `{2: 9, 1: 8}` with pairwise-distinct stringified keys, in
one iteration order... -/
def distinctPairs1 : List (Option Ast.Expression × Option Ast.Expression) :=
  [(some (intE 2), some (intE 9)), (some (intE 1), some (intE 8))]

/-- ... and in the other. -/
def distinctPairs2 : List (Option Ast.Expression × Option Ast.Expression) :=
  [(some (intE 1), some (intE 8)), (some (intE 2), some (intE 9))]

/-- Compiling `hashOrder1`: constants 1, 2, 1, 3. -/
def hashBytecodeA : Compiler.Bytecode :=
  ⟨[0, 0, 0, 0, 0, 1, 0, 0, 2, 0, 0, 3, 19, 0, 4, 2],
   [.Integer 1, .Integer 2, .Integer 1, .Integer 3]⟩

/-- Compiling `hashOrder2`: constants 1, 3, 1, 2. -/
def hashBytecodeB : Compiler.Bytecode :=
  ⟨[0, 0, 0, 0, 0, 1, 0, 0, 2, 0, 0, 3, 19, 0, 4, 2],
   [.Integer 1, .Integer 3, .Integer 1, .Integer 2]⟩

/-- A VM whose callee slot holds a `Closure` value (stack: closure at slot
0, `sp = 1`). -/
def closureCalleeVM : Vm.VM :=
  { constants := []
    stack := fun j => if j = 0 then .Closure ⟨[22], 0, 0⟩ [] else .goNil
    sp := 1
    globals := fun _ => .goNil
    frames := [⟨⟨[21, 0], 0, 0⟩, 0, 0⟩]
    framesIndex := 1 }

/-- A VM with a full value stack (`sp = StackSize`). -/
def fullStackVM : Vm.VM :=
  { constants := []
    stack := fun _ => .goNil
    sp := Vm.StackSize
    globals := fun _ => .goNil
    frames := [⟨⟨[], 0, 0⟩, 0, 0⟩]
    framesIndex := 1 }

/-- A VM with a full frame stack (`framesIndex = MaxFrames`). -/
def fullFramesVM : Vm.VM :=
  { constants := []
    stack := fun _ => .goNil
    sp := 0
    globals := fun _ => .goNil
    frames := List.replicate Vm.MaxFrames ⟨⟨[], 0, 0⟩, 0, 0⟩
    framesIndex := Vm.MaxFrames }

/-- A VM whose stack holds `b` on top of `a` (`sp = 2`), about to execute
`OpIndex`. -/
def c6VM (a b : Object.Obj) : Vm.VM :=
  { constants := []
    stack := fun j => if j = 0 then a else if j = 1 then b else .goNil
    sp := 2
    globals := fun _ => .goNil
    frames := [⟨⟨[Code.OpIndex], 0, 0⟩, 0, 0⟩]
    framesIndex := 1 }

/-- A symbol-table operation, for reasoning about call traces on one
table. -/
inductive TableOp where
  | define (name : String)
  | defineBuiltin (index : Nat) (name : String)
  | defineFunctionName (name : String)

namespace Compiler

/-- Apply one operation to a table (dropping the returned symbol). -/
def applyOp (st : SymbolTable) : TableOp → SymbolTable
  | .define n => (st.Define n).2
  | .defineBuiltin i n => (st.DefineBuiltin i n).2
  | .defineFunctionName n => (st.DefineFunctionName n).2

/-- Apply a sequence of operations in order. -/
def applyOps (st : SymbolTable) (ops : List TableOp) : SymbolTable :=
  ops.foldl applyOp st

/-- The number of `Define` calls in a trace. -/
def countDefines (ops : List TableOp) : Nat :=
  (ops.filter fun o => match o with | .define _ => true | _ => false).length

end Compiler

/-- The parser state after `Parser.New` on the input `let x 5;` (used to
exercise `expectPeek` at a concrete mismatch). -/
def c8WitnessParser : Parser.Parser :=
  Parser.New (Lexer.New "let x 5;".data)

/-- The multi-error input `let x 5; let = 3;`. -/
def c8Input : List Char := "let x 5; let = 3;".data

/-- Its parse result. -/
def c8Result : Ast.Program × Parser.Parser :=
  Parser.ParseProgram 100 (Parser.New (Lexer.New c8Input))

/-- The lexer state positioned on an opening quote: the input is
`pre ++ '"' :: s`, the current character is the quote. -/
def quoteLexer (pre s : List Char) : Lexer.Lexer :=
  ⟨pre ++ '"' :: s, pre.length, pre.length + 1, '"'⟩

/-- The AST of `[1, 2, 3][3]`. -/
def idx3Program : Ast.Program :=
  ⟨[.ExpressionStatement ⟨.LBRACKET, "["⟩ (some (.IndexExpression ⟨.LBRACKET, "["⟩
      (some (.ArrayLiteral ⟨.LBRACKET, "["⟩ [some (intE 1), some (intE 2), some (intE 3)]))
      (some (intE 3))))]⟩

/-- The AST of `[1, 2, 3][-1]` (with the index already folded to the
integer -1). -/
def idxNeg1Program : Ast.Program :=
  ⟨[.ExpressionStatement ⟨.LBRACKET, "["⟩ (some (.IndexExpression ⟨.LBRACKET, "["⟩
      (some (.ArrayLiteral ⟨.LBRACKET, "["⟩ [some (intE 1), some (intE 2), some (intE 3)]))
      (some (intE (-1)))))]⟩

/-- The bytecode of `[1, 2, 3][3]`. -/
def idx3Bytecode : Compiler.Bytecode :=
  ⟨[0, 0, 0, 0, 0, 1, 0, 0, 2, 18, 0, 3, 0, 0, 3, 20, 2],
   [.Integer 1, .Integer 2, .Integer 3, .Integer 3]⟩

/-- The bytecode of `[1, 2, 3][-1]`. -/
def idxNeg1Bytecode : Compiler.Bytecode :=
  ⟨[0, 0, 0, 0, 0, 1, 0, 0, 2, 18, 0, 3, 0, 0, 3, 20, 2],
   [.Integer 1, .Integer 2, .Integer 3, .Integer (-1)]⟩

/-- Run a compiled program to completion and observe the last popped
stack element (what the REPL prints); `none` when the run errors, panics
or times out. -/
def runLastPopped (fuel : Nat) (bc : Compiler.Bytecode) : Option Object.Obj :=
  match Vm.Run fuel (Vm.New bc) with
  | .ok vm => some vm.LastPoppedStackElem
  | _ => none

/-- The AST of `1 < 2`. -/
def ltProgram : Ast.Program :=
  ⟨[.ExpressionStatement ⟨.INT, "1"⟩ (some (.InfixExpression ⟨.LT, "<"⟩
      (some (intE 1)) "<" (some (intE 2))))]⟩

/-- The AST of `2 > 1`. -/
def gtProgram : Ast.Program :=
  ⟨[.ExpressionStatement ⟨.INT, "2"⟩ (some (.InfixExpression ⟨.GT, ">"⟩
      (some (intE 2)) ">" (some (intE 1))))]⟩

/-- A value fits a declared operand width (the table only declares widths
1 and 2). -/
def operandFits (w x : Nat) : Prop := (w = 2 ∧ x < 65536) ∨ (w = 1 ∧ x < 256)

/-! ## Helper lemmas -/

/-- Runs chain: spending `f1 + f2` fuel first runs `f1` iterations and, if
they only time out, continues from the reached state. -/
theorem runSplit (f1 f2 : Nat) (vm : Vm.VM) :
    Vm.Run (f1 + f2) vm =
      match Vm.Run f1 vm with
      | .timeout vm' => Vm.Run f2 vm'
      | .ok v => .ok v
      | .err m => .err m
      | .panic m => .panic m := by
  induction f1 generalizing vm with
  | zero => simp [Vm.Run]
  | succ f1 ih =>
    have h : f1 + 1 + f2 = (f1 + f2) + 1 := by omega
    rw [h]
    simp only [Vm.Run]
    cases Vm.runIter vm with
    | step vm' => exact ih vm'
    | ok v => rfl
    | err m => rfl
    | panic m => rfl

/-- The first five iterations of the runaway-recursion run: skip the
unknown `OpClosure` byte, misread its operand bytes as `OpConstant 0`,
store and reload the bare `CompiledFunction`, and call it. -/
theorem recSetup : Vm.Run 5 (Vm.New recBytecode) = .timeout (recState 1) := rfl

set_option maxRecDepth 8000 in
theorem recSeg1 : Vm.Run 515 (Vm.New recBytecode) = .timeout (recState 256) := rfl

set_option maxRecDepth 8000 in
theorem recSeg2 : Vm.Run 512 (recState 256) = .timeout (recState 512) := rfl

set_option maxRecDepth 8000 in
theorem recSeg3 : Vm.Run 512 (recState 512) = .timeout (recState 768) := rfl

set_option maxRecDepth 8000 in
theorem recSeg4 : Vm.Run 510 (recState 768) = .timeout (recState 1023) := rfl

set_option maxRecDepth 8000 in
theorem recSeg5 : Vm.Run 2 (recState 1023) = .panic "index out of range" := rfl

/-! ## Claim theorems -/

/-- C2 (code bug): the spec says initialization wraps the main
`CompiledFunction` in a `Closure` and that calls dispatch on `Closure`
values, but `vm.New` stores the bare `CompiledFunction` (0 locals, 0
parameters, base pointer 0, `ip = -1`) directly in the main frame, and
`executeCall` rejects a `Closure` callee with
"calling non-function and non-built-in". -/
theorem c2_vm_dispatch_code_bug :
    (∀ bc : Compiler.Bytecode,
        (Vm.New bc).frames = [⟨⟨bc.Instructions, 0, 0⟩, -1, 0⟩] ∧
        (Vm.New bc).framesIndex = 1 ∧ (Vm.New bc).sp = 0) ∧
      closureCalleeVM.executeCall 0 = .err "calling non-function and non-built-in" :=
  ⟨fun _ => ⟨rfl, rfl, rfl⟩, rfl⟩

/-- C5 counterexample: running the compiled
`let f = fn() { f() }; f()` exceeds the 1024-frame bound after 1023 calls
and the unchecked write `frames[framesIndex]` crashes the host with an
index-out-of-range panic — `Run` does not terminate with a runtime
error. -/
theorem c5_frame_overflow_counterexample :
    Compiler.compileProgram 100 recProgram = .ok recBytecode ∧
      Vm.Run 2051 (Vm.New recBytecode) = .panic "index out of range" := by
  refine ⟨rfl, ?_⟩
  rw [show (2051 : Nat) = 515 + 1536 from rfl, runSplit, recSeg1]
  show Vm.Run 1536 (recState 256) = _
  rw [show (1536 : Nat) = 512 + 1024 from rfl, runSplit, recSeg2]
  show Vm.Run 1024 (recState 512) = _
  rw [show (1024 : Nat) = 512 + 512 from rfl, runSplit, recSeg3]
  show Vm.Run 512 (recState 768) = _
  rw [show (512 : Nat) = 510 + 2 from rfl, runSplit, recSeg4]
  show Vm.Run 2 (recState 1023) = _
  exact recSeg5

/-- C5 (corrected): the bounds are 2048 stack slots, 65536 globals and
1024 frames; a push beyond the stack bound is the runtime error
"stack overflow", but pushing beyond the frame bound is an unchecked
slice write that panics the host rather than returning a runtime error
(and globals indices, being 16-bit operands, cannot exceed their
bound). -/
theorem c5_resource_bounds_amended :
    Vm.StackSize = 2048 ∧ Vm.GlobalsSize = 65536 ∧ Vm.MaxFrames = 1024 ∧
      (∀ (vm : Vm.VM) (o : Object.Obj), Vm.StackSize ≤ vm.sp →
        vm.push o = .err "stack overflow") ∧
      (∀ (vm : Vm.VM) (f : Vm.Frame), Vm.MaxFrames ≤ vm.framesIndex →
        vm.pushFrame f = .panic "index out of range") := by
  refine ⟨rfl, rfl, rfl, ?_, ?_⟩
  · intro vm o h
    unfold Vm.VM.push
    rw [if_pos h]
  · intro vm f h
    unfold Vm.VM.pushFrame
    rw [if_neg (by omega)]

/-- Witness for C5: the bound checks fire on concrete full states. -/
theorem c5_witness :
    fullStackVM.push .Null = .err "stack overflow" ∧
      fullFramesVM.pushFrame ⟨⟨[], 0, 0⟩, 0, 0⟩ = .panic "index out of range" :=
  ⟨c5_resource_bounds_amended.2.2.2.1 fullStackVM .Null (by decide),
   c5_resource_bounds_amended.2.2.2.2 fullFramesVM ⟨⟨[], 0, 0⟩, 0, 0⟩ (by decide)⟩

/-! ### C1 -/

/-- One statement of a statement list compiles, then the rest continue
from the state it produced. -/
theorem compileStepCons (fuel : Nat) (s : Ast.Statement) (rest : List Ast.Statement)
    {c c' : Compiler.Compiler} (h : Compiler.compileStmt fuel s c = Except.ok c') :
    Compiler.compileStmtList (fuel + 1) (s :: rest) c =
      Compiler.compileStmtList fuel rest c' := by
  simp only [Compiler.compileStmtList, h]
  rfl

/-- C1 (code bug): the compiler produces exactly the closure bytecode the
spec describes for the `newAdder` program, but this VM snapshot has no
`OpClosure` case: the unknown opcode byte is skipped, its first operand
bytes are re-read as `OpConstant 256`, and indexing the 4-element constant
pool panics the host — the program does not evaluate to 5. -/
theorem c1_newAdder_code_bug :
    Compiler.compileProgram 100 newAdderProgram = .ok newAdderBytecode ∧
      Vm.Run 10 (Vm.New newAdderBytecode) = .panic "index out of range" := by
  have hs1 : Compiler.compileStmt 99 newAdderSt1 Compiler.New = Except.ok cAfterS1 := rfl
  have hs2 : Compiler.compileStmt 98 newAdderSt2 cAfterS1 = Except.ok cAfterS2 := rfl
  have hs3 : Compiler.compileStmt 97 newAdderSt3 cAfterS2 = Except.ok cAfterS3 := rfl
  refine ⟨?_, rfl⟩
  show (Compiler.compileStmtList 100 [newAdderSt1, newAdderSt2, newAdderSt3]
      Compiler.New).map Compiler.Compiler.bytecode = Except.ok newAdderBytecode
  rw [show (100 : Nat) = 99 + 1 from rfl, compileStepCons 99 _ _ hs1,
      show (99 : Nat) = 98 + 1 from rfl, compileStepCons 98 _ _ hs2,
      show (98 : Nat) = 97 + 1 from rfl, compileStepCons 97 _ _ hs3]
  rfl

/-! ### C3 -/

/-- The compiler's hash-pair sort is a permutation of the source pairs. -/
theorem sortHashPairs_perm (pairs : List (Option Ast.Expression × Option Ast.Expression)) :
    (Compiler.sortHashPairs pairs).Perm pairs :=
  List.perm_insertionSort _ pairs

/-- The compiler's hash-pair sort is sorted by stringified key (byte
order, i.e. the key string's character list). -/
theorem sortHashPairs_sorted (pairs : List (Option Ast.Expression × Option Ast.Expression)) :
    (Compiler.sortHashPairs pairs).Pairwise
      (fun p q => (Compiler.pairKeyString p).data ≤ (Compiler.pairKeyString q).data) := by
  haveI : IsTotal (Option Ast.Expression × Option Ast.Expression)
      (fun p q => (Compiler.pairKeyString p).data ≤ (Compiler.pairKeyString q).data) :=
    ⟨fun a b => le_total _ _⟩
  haveI : IsTrans (Option Ast.Expression × Option Ast.Expression)
      (fun p q => (Compiler.pairKeyString p).data ≤ (Compiler.pairKeyString q).data) :=
    ⟨fun a b c => le_trans⟩
  exact List.sorted_insertionSort _ pairs

/-- With pairwise-distinct stringified keys the sort is strictly sorted. -/
theorem sortHashPairs_strict (p : List (Option Ast.Expression × Option Ast.Expression))
    (hnd : (p.map Compiler.pairKeyString).Nodup) :
    (Compiler.sortHashPairs p).Pairwise
      (fun a b => (Compiler.pairKeyString a).data < (Compiler.pairKeyString b).data) := by
  have hs := sortHashPairs_sorted p
  have hnd' : ((Compiler.sortHashPairs p).map Compiler.pairKeyString).Nodup :=
    ((sortHashPairs_perm p).map _).nodup_iff.mpr hnd
  have hne : (Compiler.sortHashPairs p).Pairwise
      (fun a b => Compiler.pairKeyString a ≠ Compiler.pairKeyString b) :=
    List.pairwise_map.mp hnd'
  exact (hs.and hne).imp
    (fun h => lt_of_le_of_ne h.1 (fun hd => h.2 (String.ext hd)))

/-- With pairwise-distinct stringified keys, permuted inputs sort
identically. -/
theorem sortHashPairs_eq_of_perm
    (p1 p2 : List (Option Ast.Expression × Option Ast.Expression))
    (hperm : p1.Perm p2) (hnd : (p1.map Compiler.pairKeyString).Nodup) :
    Compiler.sortHashPairs p1 = Compiler.sortHashPairs p2 := by
  have hp : (Compiler.sortHashPairs p1).Perm (Compiler.sortHashPairs p2) :=
    (sortHashPairs_perm p1).trans (hperm.trans (sortHashPairs_perm p2).symm)
  haveI : IsAntisymm (Option Ast.Expression × Option Ast.Expression)
      (fun a b => (Compiler.pairKeyString a).data < (Compiler.pairKeyString b).data) :=
    ⟨fun a b hab hba => absurd hba (not_lt.mpr (le_of_lt hab))⟩
  exact List.eq_of_perm_of_sorted hp (sortHashPairs_strict p1 hnd)
    (sortHashPairs_strict p2 ((hperm.map _).nodup_iff.mp hnd))

/-- C3 (corrected): the hash-literal pairs are compiled as a permutation
of the source pairs, sorted ascending by stringified key, with the `Hash`
operand 2 × pair count; and the order — hence the compiled output — is
independent of map iteration order whenever the stringified keys are
pairwise distinct.  For colliding stringified keys it is not. -/
theorem c3_hash_sort_amended :
    (∀ pairs, (Compiler.sortHashPairs pairs).Perm pairs) ∧
    (∀ pairs, (Compiler.sortHashPairs pairs).Pairwise
        (fun p q => (Compiler.pairKeyString p).data ≤ (Compiler.pairKeyString q).data)) ∧
    (∀ (fuel : Nat) (t : Token)
        (pairs : List (Option Ast.Expression × Option Ast.Expression))
        (c : Compiler.Compiler),
        Compiler.compileExpr (fuel + 1) (some (.HashLiteral t pairs)) c =
          (Compiler.compilePairs fuel (Compiler.sortHashPairs pairs) c).bind
            fun c2 => Except.ok (c2.emit Code.OpHash [pairs.length * 2]).2) ∧
    (∀ p1 p2, p1.Perm p2 → (p1.map Compiler.pairKeyString).Nodup →
        Compiler.sortHashPairs p1 = Compiler.sortHashPairs p2) :=
  ⟨sortHashPairs_perm, sortHashPairs_sorted, fun _ _ _ _ => rfl, sortHashPairs_eq_of_perm⟩

/-- C3 counterexample: the two iteration orders of `{1: 2, 1: 3}` (a hash
literal whose two keys stringify identically) compile to the same
instructions but different constant pools. -/
theorem c3_counterexample :
    hashOrder1Pairs.Perm hashOrder2Pairs ∧
      Compiler.compileProgram 100 hashOrder1 = .ok hashBytecodeA ∧
      Compiler.compileProgram 100 hashOrder2 = .ok hashBytecodeB ∧
      hashBytecodeA.Instructions = hashBytecodeB.Instructions ∧
      hashBytecodeA.Constants ≠ hashBytecodeB.Constants := by
  refine ⟨List.Perm.swap _ _ _, rfl, rfl, rfl, ?_⟩
  intro h
  simp [hashBytecodeA, hashBytecodeB] at h

/-- Witness for C3: two iteration orders of `{2: 9, 1: 8}` (distinct
stringified keys) sort identically. -/
theorem c3_witness :
    Compiler.sortHashPairs distinctPairs1 = Compiler.sortHashPairs distinctPairs2 :=
  c3_hash_sort_amended.2.2.2 distinctPairs1 distinctPairs2 (List.Perm.swap _ _ _)
    (by decide)

/-! ### C4 -/

/-- Decoding the operand bytes written by `Make`'s loop recovers the
operands and counts the width sum. -/
theorem readOperandsRoundTrip (ws xs : List Nat)
    (h : List.Forall₂ operandFits ws xs) :
    Code.readOperandsGo ws (Code.encodeOperands ws xs) = some (xs, ws.sum) := by
  induction h with
  | nil => rfl
  | @cons w x ws' xs' hwx _ ih =>
    rcases hwx with ⟨rfl, hx⟩ | ⟨rfl, hx⟩
    · have hv : 256 * (x % 65536 / 256) + x % 256 = x := by omega
      have hstep : Code.readOperandsGo (2 :: ws')
          (Code.encodeOperands (2 :: ws') (x :: xs')) =
          (Code.readOperandsGo ws' (Code.encodeOperands ws' xs')).bind
            (fun p => some ((256 * (x % 65536 / 256) + x % 256) :: p.1, 2 + p.2)) := rfl
      rw [hstep, ih]
      show some ((256 * (x % 65536 / 256) + x % 256) :: xs', 2 + ws'.sum) =
        some (x :: xs', 2 + ws'.sum)
      rw [hv]
    · have hv : x % 256 = x := Nat.mod_eq_of_lt hx
      have hstep : Code.readOperandsGo (1 :: ws')
          (Code.encodeOperands (1 :: ws') (x :: xs')) =
          (Code.readOperandsGo ws' (Code.encodeOperands ws' xs')).bind
            (fun p => some ((x % 256) :: p.1, 1 + p.2)) := rfl
      rw [hstep, ih]
      show some ((x % 256) :: xs', 1 + ws'.sum) = some (x :: xs', 1 + ws'.sum)
      rw [hv]

/-- C4 (confirmed): for every opcode with a definition and every operand
vector fitting its declared widths,
`ReadOperands def ((Make op xs).drop 1)` returns the original vector with
a byte count equal to the sum of the widths. -/
theorem c4_make_readOperands_roundtrip :
    ∀ (op : Code.Opcode) (d : Code.Definition) (xs : List Nat),
      Code.Lookup op = some d → List.Forall₂ operandFits d.OperandWidths xs →
      Code.ReadOperands d ((Code.Make op xs).drop 1) =
        some (xs, d.OperandWidths.sum) := by
  intro op d xs hl hf
  simp only [Code.ReadOperands, Code.Make, hl]
  exact readOperandsRoundTrip _ _ hf

/-- Witness for C4: `OpClosure` with operands 65534 and 7 decodes back to
itself having read 3 bytes. -/
theorem c4_witness :
    Code.ReadOperands ⟨"OpClosure", [2, 1]⟩ ((Code.Make 27 [65534, 7]).drop 1) =
      some ([65534, 7], 3) :=
  c4_make_readOperands_roundtrip 27 ⟨"OpClosure", [2, 1]⟩ [65534, 7] rfl
    (.cons (Or.inl ⟨rfl, by omega⟩) (.cons (Or.inr ⟨rfl, by omega⟩) .nil))

/-! ### C6 -/

/-- C6 (confirmed): indexing an array with an integer pushes `Null`
outside `0 ≤ i ≤ n-1` and the element inside the bounds; it returns
normally (no runtime error) whenever a stack slot is free, and both
`[1,2,3][3]` and `[1,2,3][-1]` compile and run to `Null`. -/
theorem c6_array_index_confirmed :
    (∀ (vm : Vm.VM) (elements : List Object.Obj) (i : Int),
        vm.executeIndexExpression (.Array elements) (.Integer i) =
          if i < 0 ∨ (elements.length : Int) - 1 < i then vm.push .Null
          else vm.push (elements.getD i.toNat .goNil)) ∧
    (∀ (vm : Vm.VM) (elements : List Object.Obj) (i : Int), vm.sp < Vm.StackSize →
        ∃ vm', vm.executeIndexExpression (.Array elements) (.Integer i) = .ok vm') ∧
    Compiler.compileProgram 100 idx3Program = .ok idx3Bytecode ∧
    runLastPopped 20 idx3Bytecode = some .Null ∧
    Compiler.compileProgram 100 idxNeg1Program = .ok idxNeg1Bytecode ∧
    runLastPopped 20 idxNeg1Bytecode = some .Null := by
  refine ⟨fun vm elements i => rfl, ?_, rfl, rfl, rfl, rfl⟩
  intro vm elements i hsp
  have hpush : ∀ o : Object.Obj, vm.push o =
      .ok { vm with stack := fun j => if j = vm.sp then o else vm.stack j,
                    sp := vm.sp + 1 } := by
    intro o
    unfold Vm.VM.push
    rw [if_neg (by omega)]
  show ∃ vm', (if i < 0 ∨ (elements.length : Int) - 1 < i then vm.push Object.Obj.Null
      else vm.push (elements.getD i.toNat .goNil)) = .ok vm'
  by_cases hc : i < 0 ∨ (elements.length : Int) - 1 < i
  · rw [if_pos hc, hpush]
    exact ⟨_, rfl⟩
  · rw [if_neg hc, hpush]
    exact ⟨_, rfl⟩

/-- Witness for C6: indexing `[7]` at 9 on a VM with two occupied slots
returns normally. -/
theorem c6_witness :
    ∃ vm', (c6VM (.Integer 0) (.Integer 0)).executeIndexExpression
        (.Array [.Integer 7]) (.Integer 9) = .ok vm' :=
  c6_array_index_confirmed.2.1 (c6VM (.Integer 0) (.Integer 0)) [.Integer 7] 9
    (by decide)

/-! ### C7 -/

/-- C7 (confirmed): `a < b` compiles right-then-left with `GreaterThan`,
identically to `b > a`; all other infix operators compile left then right
and emit their table opcode; concretely `1 < 2` and `2 > 1` produce the
same bytecode. -/
theorem c7_lt_swap_confirmed :
    (∀ (fuel : Nat) (t1 t2 : Token) (l r : Option Ast.Expression)
        (c : Compiler.Compiler),
        Compiler.compileExpr (fuel + 1) (some (.InfixExpression t1 l "<" r)) c =
          Compiler.compileExpr (fuel + 1) (some (.InfixExpression t2 r ">" l)) c) ∧
    (∀ (fuel : Nat) (t : Token) (l r : Option Ast.Expression)
        (c : Compiler.Compiler) (op : String),
        op ∈ ["+", "-", "*", "/", ">", "==", "!="] →
        Compiler.compileExpr (fuel + 1) (some (.InfixExpression t l op r)) c =
          (Compiler.compileExpr fuel l c).bind fun c1 =>
            (Compiler.compileExpr fuel r c1).bind fun c2 =>
              Except.ok (c2.emit (specInfixOpcode op) []).2) ∧
    Compiler.compileProgram 100 ltProgram = Compiler.compileProgram 100 gtProgram ∧
    Compiler.compileProgram 100 ltProgram =
      .ok ⟨[0, 0, 0, 0, 0, 1, 10, 2], [.Integer 2, .Integer 1]⟩ := by
  refine ⟨fun fuel t1 t2 l r c => rfl, ?_, rfl, rfl⟩
  intro fuel t l r c op hop
  fin_cases hop <;> rfl

/-- Witness for C7: `+` at concrete subexpressions compiles left, right,
then `OpAdd`. -/
theorem c7_witness :
    Compiler.compileExpr 1
        (some (.InfixExpression tokPLUS (some (intE 1)) "+" (some (intE 2))))
        Compiler.New =
      (Compiler.compileExpr 0 (some (intE 1)) Compiler.New).bind fun c1 =>
        (Compiler.compileExpr 0 (some (intE 2)) c1).bind fun c2 =>
          Except.ok (c2.emit (specInfixOpcode "+") []).2 :=
  c7_lt_swap_confirmed.2.1 0 tokPLUS (some (intE 1)) (some (intE 2)) Compiler.New "+"
    (by simp)

/-! ### C8 -/

/-- C8 (confirmed): a failed `expectPeek` returns false and appends
exactly one diagnostic; `ParseProgram` still returns a program — on
`let x 5; let = 3;` it returns five statements and accumulates three
diagnostics. -/
theorem c8_parser_errors_confirmed :
    (∀ (p : Parser.Parser) (t : TokenType), Parser.peekTokenIs p t = false →
        (Parser.expectPeek p t).1 = false ∧
        (Parser.expectPeek p t).2.errors =
          p.errors ++ ["expected next token to be " ++ t.goString ++ ", got " ++
            p.peekToken.type.goString ++ " instead"] ∧
        (Parser.expectPeek p t).2.errors.length = p.errors.length + 1) ∧
    c8Result.1.Statements.length = 5 ∧
    c8Result.2.errors =
      ["expected next token to be =, got INT instead",
       "expected next token to be IDENT, got = instead",
       "no prefix parse function for = found"] := by
  refine ⟨?_, rfl, rfl⟩
  intro p t h
  unfold Parser.expectPeek
  rw [h]
  simp [Parser.peekError]

/-- Witness for C8: expecting `=` while peeking at `x` in `let x 5;`
fails and appends one diagnostic. -/
theorem c8_witness :
    (Parser.expectPeek c8WitnessParser .ASSIGN).1 = false ∧
      (Parser.expectPeek c8WitnessParser .ASSIGN).2.errors =
        c8WitnessParser.errors ++ ["expected next token to be =, got IDENT instead"] ∧
      (Parser.expectPeek c8WitnessParser .ASSIGN).2.errors.length =
        c8WitnessParser.errors.length + 1 :=
  c8_parser_errors_confirmed.1 c8WitnessParser .ASSIGN rfl

/-! ### C9 -/

/-- One unfolding of the `readString` loop. -/
theorem readStringGoStep (fuel : Nat) (l : Lexer.Lexer) :
    Lexer.readStringGo (fuel + 1) l =
      if (Lexer.readChar l).ch = '"' ∨ (Lexer.readChar l).ch = Lexer.NUL
      then Lexer.readChar l else Lexer.readStringGo fuel (Lexer.readChar l) := rfl

/-- Running the `readString` loop over a suffix with no quote and no NUL
byte consumes the whole suffix and stops one step past the end with the
NUL sentinel. -/
theorem readStringGoRun :
    ∀ (s pre : List Char) (pos : Nat) (c0 : Char), '"' ∉ s → Lexer.NUL ∉ s →
      Lexer.readStringGo (s.length + 1) ⟨pre ++ s, pos, pre.length, c0⟩ =
        ⟨pre ++ s, (pre ++ s).length, (pre ++ s).length + 1, Lexer.NUL⟩ := by
  intro s
  induction s with
  | nil =>
    intro pre pos c0 _ _
    rw [readStringGoStep]
    have hrc : Lexer.readChar ⟨pre ++ [], pos, pre.length, c0⟩ =
        ⟨pre ++ [], pre.length, pre.length + 1, Lexer.NUL⟩ := by
      unfold Lexer.readChar
      simp
    rw [hrc]
    simp
  | cons c s ih =>
    intro pre pos c0 hq hn
    have hc1 : ¬(c = '"' ∨ c = Lexer.NUL) := by
      rintro (rfl | rfl)
      · exact hq (List.mem_cons_self _ _)
      · exact hn (List.mem_cons_self _ _)
    have hrc : Lexer.readChar ⟨pre ++ c :: s, pos, pre.length, c0⟩ =
        ⟨pre ++ c :: s, pre.length, pre.length + 1, c⟩ := by
      unfold Lexer.readChar
      have hlen : ¬((pre ++ c :: s).length ≤ pre.length) := by
        simp [List.length_append]
      have hget : ∀ (pre' : List Char) (h : pre'.length < (pre' ++ c :: s).length),
          (pre' ++ c :: s)[pre'.length] = c := by
        intro pre'
        induction pre' with
        | nil => intro h; rfl
        | cons p pre' ih =>
          intro h
          simpa using ih (by simp only [List.length_append, List.length_cons]; omega)
      simp [hlen]
      exact hget pre (by simp only [List.length_append, List.length_cons]; omega)
    show Lexer.readStringGo (s.length + 1 + 1) _ = _
    rw [readStringGoStep, hrc]
    rw [if_neg (by simpa using hc1)]
    have := ih (pre ++ [c]) pre.length c
      (fun h => hq (List.mem_cons_of_mem _ h))
      (fun h => hn (List.mem_cons_of_mem _ h))
    simpa [List.append_assoc] using this

/-- `readString` on an opening quote whose suffix holds no quote and no
NUL: the literal is the whole suffix and the lexer ends one past the
input. -/
theorem readStringRun (pre s : List Char) (hq : '"' ∉ s) (hn : Lexer.NUL ∉ s) :
    Lexer.readString (quoteLexer pre s) =
      (String.mk s, ⟨pre ++ '"' :: s, (pre ++ '"' :: s).length,
        (pre ++ '"' :: s).length + 1, Lexer.NUL⟩) := by
  have hfuel : (pre ++ '"' :: s).length + 1 - (pre.length + 1) = s.length + 1 := by
    simp only [List.length_append, List.length_cons]
    omega
  have hsplit : pre ++ '"' :: s = (pre ++ ['"']) ++ s := by
    simp [List.append_assoc]
  have hlen : pre.length + 1 = (pre ++ ['"']).length := by simp
  have hgo := readStringGoRun s (pre ++ ['"']) pre.length '"' hq hn
  rw [← hsplit] at hgo
  rw [← hlen] at hgo
  have hdrop : ((pre ++ '"' :: s).drop (pre.length + 1)) = s := by
    rw [hsplit, hlen]
    exact List.drop_left _ _
  have htake : (pre ++ '"' :: s).length - (pre.length + 1) = s.length := by
    simp only [List.length_append, List.length_cons]
    omega
  show (Lexer.slice
      (Lexer.readStringGo ((pre ++ '"' :: s).length + 1 - (pre.length + 1))
        ⟨pre ++ '"' :: s, pre.length, pre.length + 1, '"'⟩).input (pre.length + 1)
      (Lexer.readStringGo ((pre ++ '"' :: s).length + 1 - (pre.length + 1))
        ⟨pre ++ '"' :: s, pre.length, pre.length + 1, '"'⟩).position,
    Lexer.readStringGo ((pre ++ '"' :: s).length + 1 - (pre.length + 1))
      ⟨pre ++ '"' :: s, pre.length, pre.length + 1, '"'⟩) = _
  rw [hfuel, hgo]
  show (Lexer.slice (pre ++ '"' :: s) (pre.length + 1) (pre ++ '"' :: s).length,
      (⟨pre ++ '"' :: s, (pre ++ '"' :: s).length, (pre ++ '"' :: s).length + 1,
        Lexer.NUL⟩ : Lexer.Lexer)) = _
  have hslice : Lexer.slice (pre ++ '"' :: s) (pre.length + 1)
      (pre ++ '"' :: s).length = String.mk s := by
    unfold Lexer.slice
    rw [hdrop, htake, List.take_length]
  rw [hslice]

/-- The whitespace skip does not move off the opening quote. -/
theorem skipWhitespaceQuote (pre s : List Char) :
    Lexer.skipWhitespace (quoteLexer pre s) = quoteLexer pre s := by
  unfold Lexer.skipWhitespace
  cases h : (quoteLexer pre s).input.length + 1 - (quoteLexer pre s).readPosition with
  | zero => rfl
  | succ n =>
    show Lexer.skipWhitespaceGo (n + 1) (quoteLexer pre s) = quoteLexer pre s
    rw [Lexer.skipWhitespaceGo]
    rw [if_neg (by simp [quoteLexer, Lexer.isWhitespaceCh])]

/-- C9 (corrected): on an opening quote never matched by a closing one,
`NextToken` yields a STRING token whose literal is the remaining bytes —
provided no NUL byte occurs among them (a NUL also terminates the loop,
so the amended literal is the bytes up to the first quote, NUL byte or
end of input). -/
theorem c9_unterminated_string_amended :
    ∀ (pre s : List Char), '"' ∉ s → Lexer.NUL ∉ s →
      (Lexer.NextToken (quoteLexer pre s)).1 = ⟨.STRING, String.mk s⟩ := by
  intro pre s hq hn
  unfold Lexer.NextToken
  rw [skipWhitespaceQuote]
  show (⟨TokenType.STRING, (Lexer.readString (quoteLexer pre s)).1⟩ : Token) =
    ⟨.STRING, String.mk s⟩
  rw [readStringRun pre s hq hn]

/-- C9 counterexample: the unterminated input `"a␀b` stops at the NUL
byte — the literal is `a`, not the remaining bytes `a␀b`. -/
theorem c9_counterexample :
    (Lexer.NextToken (Lexer.New ['"', 'a', Lexer.NUL, 'b'])).1 =
        ⟨.STRING, "a"⟩ ∧
      "a" ≠ String.mk ['a', Lexer.NUL, 'b'] :=
  ⟨rfl, by decide⟩

/-- Witness for C9: lexing `x "ab` from the quote yields the STRING
token `ab`. -/
theorem c9_witness :
    (Lexer.NextToken (quoteLexer ['x', ' '] ['a', 'b'])).1 =
      ⟨.STRING, String.mk ['a', 'b']⟩ :=
  c9_unterminated_string_amended ['x', ' '] ['a', 'b'] (by decide) (by decide)

/-! ### C10 -/

/-- `applyOp` grows the definition count by one exactly on `Define`. -/
theorem applyOp_numDefinitions (st : Compiler.SymbolTable) (o : TableOp) :
    (Compiler.applyOp st o).numDefinitions =
      st.numDefinitions + (match o with | .define _ => 1 | _ => 0) := by
  cases o <;> (cases st; rfl)

/-- A trace's definition count is the starting count plus its `Define`
calls. -/
theorem applyOps_numDefinitions (ops : List TableOp) (st : Compiler.SymbolTable) :
    (Compiler.applyOps st ops).numDefinitions =
      st.numDefinitions + Compiler.countDefines ops := by
  induction ops generalizing st with
  | nil => rfl
  | cons o ops ih =>
    show (Compiler.applyOps (Compiler.applyOp st o) ops).numDefinitions = _
    rw [ih, applyOp_numDefinitions]
    cases o <;> (simp [Compiler.countDefines, List.filter]; try omega)

/-- The symbol `Define` returns carries the current definition count as
its index. -/
theorem define_index (st : Compiler.SymbolTable) (name : String) :
    ((st.Define name).1).Index = st.numDefinitions := by
  cases st
  rfl

/-- C10 (confirmed): `Define` hands out the previous-`Define` count as
the index — also for a name already defined in the same table, whose
redefinition gets a fresh larger index — and resolving the name afterwards
returns the newest symbol. -/
theorem c10_define_fresh_index_confirmed :
    (∀ (st : Compiler.SymbolTable) (name : String),
        ((st.Define name).1).Index = st.numDefinitions ∧
        ((st.Define name).2).numDefinitions = st.numDefinitions + 1) ∧
    (∀ (ops : List TableOp) (name : String),
        ((Compiler.applyOps Compiler.NewSymbolTable ops).Define name).1.Index =
          Compiler.countDefines ops) ∧
    (∀ (st : Compiler.SymbolTable) (name : String),
        (((st.Define name).2).Define name).1.Index = ((st.Define name).1).Index + 1) ∧
    (∀ (st : Compiler.SymbolTable) (name : String),
        Compiler.storeGet ((st.Define name).2).store name = some (st.Define name).1) ∧
    (((Compiler.NewSymbolTable.Define "x").2.Define "x").2.Resolve "x" =
      (some ⟨"x", Compiler.GlobalScope, 1⟩,
        ((Compiler.NewSymbolTable.Define "x").2.Define "x").2)) := by
  refine ⟨fun st name => ⟨define_index st name, by cases st; rfl⟩, ?_, ?_, ?_, rfl⟩
  · intro ops name
    rw [define_index, applyOps_numDefinitions]
    simp [Compiler.NewSymbolTable, Compiler.SymbolTable.numDefinitions]
  · intro st name
    cases st
    rfl
  · intro st name
    cases st with
    | mk outer store nd free =>
      simp [Compiler.SymbolTable.Define, Compiler.SymbolTable.store,
        Compiler.storeGet, Compiler.storeSet]

end Interp

